import Mathlib

/-!
Verification of the AFC (Automated Frequency Coordination) decision engine
against its natural-language specification.

The definitions below are a shallow embedding of the Python source:
Python floats are modelled as real numbers (`ℝ`) wherever logarithms or
trigonometry appear, and as exact rationals (`ℚ`) or polymorphically over a
`LinearOrderedField` for the purely arithmetic kernels, so that concrete
witnesses can be evaluated.  Python `sorted` on pairs is modelled with
`List.insertionSort` under the lexicographic order: since that order is
total and antisymmetric on pairs, the sorted output is uniquely determined,
so any correct sort is an exact model.  Python's `UnboundLocalError` in
`build_grant_table_with_incumbents` is modelled with `Except`.
-/

set_option linter.unusedVariables false

namespace AFC

section PolyHelpers

variable {α : Type} [LinearOrderedField α]

variable [FloorRing α]

/-- Python `x % y` on floats for `y ≠ 0`: `x - y * floor (x / y)`. -/
def pyMod (x y : α) : α := x - y * ⌊x / y⌋

/-- Python `int(x)` on a float: truncation toward zero. -/
def pyTrunc (x : α) : ℤ := if 0 ≤ x then ⌊x⌋ else ⌈x⌉

/-- Lexicographic order on `(offset, attenuation)` pairs, the order used by
Python `sorted` on 2-tuples. -/
def pairLe (p q : α × α) : Prop := p.1 < q.1 ∨ (p.1 = q.1 ∧ p.2 ≤ q.2)

instance pairLe.decidable : DecidableRel (pairLe (α := α)) := fun p q => by
  unfold pairLe; infer_instance

/-- Python `sorted(points)` for lists of numeric pairs (`acir_masks._sorted_points`,
first half).  `insertionSort` under the total lexicographic order produces the
unique sorted rearrangement, exactly as CPython's timsort does. -/
def sortPairs (l : List (α × α)) : List (α × α) := l.insertionSort pairLe

/-- The duplicate-collapsing loop of `acir_masks._sorted_points`: walk the
sorted list keeping an accumulator (held in reverse, mirroring Python's
`cleaned` list whose last element is mutated); a point whose offset is within
`1e-9` of the previously kept one replaces it, otherwise it is appended. -/
def dedupNear : List (α × α) → List (α × α) → List (α × α)
  | accRev, [] => accRev.reverse
  | [], p :: rest => dedupNear [p] rest
  | last :: accTail, p :: rest =>
      if |last.1 - p.1| < (1e-9 : α) then dedupNear (p :: accTail) rest
      else dedupNear (p :: last :: accTail) rest

/-- `acir_masks._sorted_points`: sort, then collapse near-duplicate offsets. -/
def sortedPoints (l : List (α × α)) : List (α × α) := dedupNear [] (sortPairs l)

/-- The pair-scanning loop of `acir_masks.interpolate_mask_db`: given the
current point and the remaining points, return the linear interpolation on the
first segment containing `x`, else fall through to the last attenuation. -/
def interpAux (x : α) : α × α → List (α × α) → α
  | p, [] => p.2
  | p, q :: rest =>
      if p.1 ≤ x ∧ x ≤ q.1 then
        if |q.1 - p.1| < (1e-12 : α) then p.2
        else p.2 + (x - p.1) / (q.1 - p.1) * (q.2 - p.2)
      else interpAux x q rest

/-- `acir_masks.interpolate_mask_db`.  The source raises `ValueError` on an
empty point list; every caller in the verified scope passes a non-empty list
(`ensure_defaults` always yields six points), so the empty case returns a junk
value here and theorems carry a non-emptiness hypothesis. -/
def interpolate_mask_db (x : α) (maskPoints : List (α × α)) : α :=
  match sortedPoints maskPoints with
  | [] => 0
  | p :: rest => if x ≤ p.1 then p.2 else interpAux x p rest

end PolyHelpers

section Dicts

variable {α : Type} [LinearOrderedField α]

/-- A Python `dict[int, float]` as an insertion-ordered association list with
unique keys (as produced by the dict literals and `dict.update` in the source). -/
def dictSet (d : List (ℤ × α)) (kv : ℤ × α) : List (ℤ × α) :=
  if d.any (fun e => e.1 == kv.1) then d.map (fun e => if e.1 = kv.1 then kv else e)
  else d ++ [kv]

/-- Python `base.update(upd)`: overriding entries keep their position, new
entries are appended in order. -/
def dictUpdate (base upd : List (ℤ × α)) : List (ℤ × α) := upd.foldl dictSet base

/-- `acir_defaults.default_tx_mask_db_by_offset_mhz`. -/
def default_tx_mask_db_by_offset_mhz : List (ℤ × α) :=
  [(10, 20), (20, 30), (30, 33), (40, 35), (80, 45), (120, 50)]

/-- `acir_defaults.default_rx_acs_db_by_offset_mhz`. -/
def default_rx_acs_db_by_offset_mhz : List (ℤ × α) :=
  [(10, 18), (20, 30), (30, 32), (40, 35), (80, 43), (120, 48)]

/-- `acir_defaults.ensure_defaults`: merge provided masks over the defaults. -/
def ensure_defaults (aTx aRx : List (ℤ × α)) : List (ℤ × α) × List (ℤ × α) :=
  (dictUpdate default_tx_mask_db_by_offset_mhz aTx,
   dictUpdate default_rx_acs_db_by_offset_mhz aRx)

/-- The `sorted((float(k), float(v)) for k, v in table.items())` idiom used by
the grant-table builder and the protocol handler. -/
def dictPoints (d : List (ℤ × α)) : List (α × α) :=
  sortPairs (d.map (fun kv => ((kv.1 : α), kv.2)))

end Dicts

section EmissionDesignator

/-- Unit scale of `fs_bandwidth._UNIT_SCALE` (Hz per unit letter). -/
def unitScale (c : Char) : Option ℚ :=
  if c = 'H' then some 1
  else if c = 'K' then some 1000
  else if c = 'M' then some 1000000
  else if c = 'G' then some 1000000000
  else none

def digitVal (c : Char) : ℕ := c.toNat - '0'.toNat

/-- One-digit fallback of the greedy `[0-9]{1,3}` match. -/
def matchEDAt1 (cs : List Char) : Option (ℕ × Char × ℕ) :=
  match cs with
  | d1 :: u :: f :: _ =>
      if d1.isDigit ∧ (unitScale u.toUpper).isSome ∧ f.isDigit then
        some (digitVal d1, u.toUpper, digitVal f)
      else none
  | _ => none

/-- Two-digit fallback of the greedy `[0-9]{1,3}` match. -/
def matchEDAt2 (cs : List Char) : Option (ℕ × Char × ℕ) :=
  match cs with
  | d1 :: d2 :: u :: f :: _ =>
      if d1.isDigit ∧ d2.isDigit ∧ (unitScale u.toUpper).isSome ∧ f.isDigit then
        some (10 * digitVal d1 + digitVal d2, u.toUpper, digitVal f)
      else matchEDAt1 cs
  | _ => matchEDAt1 cs

/-- Try to match `([0-9]{1,3})([HKMG])([0-9])` (case-insensitive) at the head
of `cs`, greedily taking 3, then 2, then 1 digits, as the regex engine does. -/
def matchEDAt (cs : List Char) : Option (ℕ × Char × ℕ) :=
  match cs with
  | d1 :: d2 :: d3 :: u :: f :: _ =>
      if d1.isDigit ∧ d2.isDigit ∧ d3.isDigit ∧
         (unitScale u.toUpper).isSome ∧ f.isDigit then
        some (100 * digitVal d1 + 10 * digitVal d2 + digitVal d3, u.toUpper, digitVal f)
      else matchEDAt2 cs
  | _ => matchEDAt2 cs

/-- `re.search`: leftmost match of the pattern anywhere in the string. -/
def searchED : List Char → Option (ℕ × Char × ℕ)
  | [] => none
  | c :: rest =>
      match matchEDAt (c :: rest) with
      | some m => some m
      | none => searchED rest

/-- `fs_bandwidth.parse_emission_designator_bw_hz`: necessary bandwidth in Hz
from an emission designator, or `none` when the pattern does not occur.
The numeric value is exact, so it is returned as a rational. -/
def parse_emission_designator_bw_hz (designator : String) : Option ℚ :=
  if designator = "" then none
  else
    match searchED designator.data with
    | none => none
    | some (whole, u, frac) =>
        match unitScale u with
        | none => none
        | some scale => some (((whole : ℚ) + (frac : ℚ) / 10) * scale)

end EmissionDesignator

section SpecParams

/-- `spec_params.IncumbentReceiverParams`. -/
structure IncumbentReceiverParams where
  noise_figure_db : ℝ
  bandwidth_hz : ℝ
  antenna_gain_dbi : ℝ
  rx_losses_db : ℝ
  polarization_mismatch_db : ℝ

/-- `spec_params.WiFiRegulatoryLimits`. -/
structure WiFiRegulatoryLimits where
  max_eirp_dbm : ℝ

/-- `spec_params.ACIRSpec`: sparse `offset_MHz → attenuation_dB` tables. -/
structure ACIRSpec where
  a_tx_db_by_offset_mhz : List (ℤ × ℝ)
  a_rx_db_by_offset_mhz : List (ℤ × ℝ)

/-- `spec_params.SpecParameters`. -/
structure SpecParameters where
  incumbent : IncumbentReceiverParams
  wifi_limits : WiFiRegulatoryLimits
  acir : ACIRSpec

/-- `device_constraints.DeviceConstraints` (defaults `0.0` / `-10.0`). -/
structure DeviceConstraints where
  min_eirp_dbm : ℝ
  min_psd_dbm_per_mhz : ℝ

/-- `device_constraints.apply_constraints_to_decision`. -/
noncomputable def apply_constraints_to_decision (allowed_eirp_dbm psd_dbm_per_mhz : ℝ)
    (cons : DeviceConstraints) : Bool :=
  if allowed_eirp_dbm < cons.min_eirp_dbm then false
  else if psd_dbm_per_mhz < cons.min_psd_dbm_per_mhz then false
  else true

end SpecParams

noncomputable section FsBandwidth

/-- The lower-precedence tail of `determine_fs_noise_bw_hz`: explicit Rx
bandwidth, then recorded channel bandwidth, then the spec default. -/
def determine_fs_noise_bw_tail (spec : SpecParameters)
    (explicit_rx_bw_hz : Option ℝ) (ul_bandwidth_hz : Option ℝ) : ℝ :=
  match explicit_rx_bw_hz with
  | some e =>
      if 0 < e then e
      else
        match ul_bandwidth_hz with
        | some u => if 0 < u then u else spec.incumbent.bandwidth_hz
        | none => spec.incumbent.bandwidth_hz
  | none =>
      match ul_bandwidth_hz with
      | some u => if 0 < u then u else spec.incumbent.bandwidth_hz
      | none => spec.incumbent.bandwidth_hz

/-- `fs_bandwidth.determine_fs_noise_bw_hz`: strict precedence over the
emission designator, the explicit Rx bandwidth, the recorded channel
bandwidth, and the spec default.  Python's truthiness test `bw and bw > 0`
rejects both falsy `0.0` and non-positive values, i.e. exactly `¬ (0 < bw)`;
`if emission_designator` skips empty strings (on which the parser returns
`none` anyway). -/
def determine_fs_noise_bw_hz (spec : SpecParameters) (emission_designator : Option String)
    (explicit_rx_bw_hz : Option ℝ) (ul_bandwidth_hz : Option ℝ) : ℝ :=
  let bw_from_ed : Option ℚ :=
    match emission_designator with
    | some d => if d = "" then none else parse_emission_designator_bw_hz d
    | none => none
  match bw_from_ed with
  | some b =>
      if 0 < b then (b : ℝ)
      else determine_fs_noise_bw_tail spec explicit_rx_bw_hz ul_bandwidth_hz
  | none => determine_fs_noise_bw_tail spec explicit_rx_bw_hz ul_bandwidth_hz

end FsBandwidth

noncomputable section RealFns

open Real

/-- Base-10 logarithm on ℝ, the model of Python `math.log10`. -/
def log10 (x : ℝ) : ℝ := Real.logb 10 x

/-- Python `10.0 ** x` (positive base), modelled with the real power. -/
def pow10 (x : ℝ) : ℝ := (10 : ℝ) ^ x

/-- Speed of light used in `fspl.py` (`_C`). -/
def cLight : ℝ := 2.99792458e8

/-- Earth radius used in `geodesy.py`. -/
def rEarth : ℝ := 6371000

/-- `fspl.fspl_db`: free-space path loss `20 log10(4 π d f / c)`.  The source
raises `ValueError` for non-positive distance or frequency; theorems that
depend on this function carry positivity hypotheses. -/
def fspl_db (distance_m frequency_hz : ℝ) : ℝ :=
  20 * log10 (4 * π * distance_m * frequency_hz / cLight)

/-- `fspl.invert_fspl_distance_m`: `d = (c / (4 π f)) · 10^(FSPL/20)`. -/
def invert_fspl_distance_m (fspl_db_value frequency_hz : ℝ) : ℝ :=
  (cLight / (4 * π * frequency_hz)) * pow10 (fspl_db_value / 20)

/-- `link_budget.noise_power_dbm`: `-174 + 10 log10 B + NF` (with the default
thermal density).  The source raises for `B ≤ 0`; callers in the verified
scope pass positive bandwidths. -/
def noise_power_dbm (b_rx_hz nf_db : ℝ) : ℝ :=
  -174 + 10 * log10 b_rx_hz + nf_db

/-- `link_budget.i_threshold_dbm`. -/
def i_threshold_dbm (n_dbm inr_limit_db : ℝ) : ℝ := n_dbm + inr_limit_db

/-- `acir.acir_db`: parallel combination of Tx leakage and Rx selectivity. -/
def acir_db (a_tx_db a_rx_db : ℝ) : ℝ :=
  10 * log10 (1 / (pow10 (-a_tx_db / 10) + pow10 (-a_rx_db / 10)))

/-- `acir_masks.acir_db_from_masks`: interpolate both masks at the offset and
combine with `acir_db`. -/
def acir_db_from_masks (offset_mhz : ℝ) (tx_mask_points rx_acs_points : List (ℝ × ℝ)) : ℝ :=
  acir_db (interpolate_mask_db offset_mhz tx_mask_points)
    (interpolate_mask_db offset_mhz rx_acs_points)

/-- `acir._nearest_key`: the key of the table closest to `key` (first minimum
in insertion order, as Python `min` returns). -/
def nearestKey (d : List (ℤ × ℝ)) (key : ℤ) : Option ℤ :=
  if d.any (fun e => e.1 == key) then some key
  else
    match d.map (·.1) with
    | [] => none
    | k :: ks => some (ks.foldl (fun best k' => if |k' - key| < |best - key| then k' else best) k)

/-- Lookup in the association-list model of a Python dict. -/
def dictGet (d : List (ℤ × ℝ)) (k : ℤ) : Option ℝ :=
  (d.find? (fun e => e.1 == k)).map (·.2)

/-- `acir.acir_db_from_spec`: nearest-neighbour lookup on both spec tables,
then `acir_db`.  The source raises on empty tables; this returns a junk value
there (never reached in the verified scope, where the spec offset argument is
always `None`). -/
def acir_db_from_spec (acirSpec : ACIRSpec) (offset_mhz : ℤ) : ℝ :=
  match nearestKey acirSpec.a_tx_db_by_offset_mhz offset_mhz,
        nearestKey acirSpec.a_rx_db_by_offset_mhz offset_mhz with
  | some kTx, some kRx =>
      acir_db ((dictGet acirSpec.a_tx_db_by_offset_mhz kTx).getD 0)
        ((dictGet acirSpec.a_rx_db_by_offset_mhz kRx).getD 0)
  | _, _ => 0

/-- `allocator.allowed_eirp_dbm_for_path`: invert the I/N inequality, shift the
threshold by ACIR when adjacent, and clamp at the regulatory cap when given. -/
def allowed_eirp_dbm_for_path (n_dbm inr_limit_db path_loss_db g_rx_dbi l_rx_losses_db
    l_polarization_db : ℝ) (acir_db_value : Option ℝ) (eirp_regulatory_max_dbm : Option ℝ) : ℝ :=
  let i_thr_dbm := i_threshold_dbm n_dbm inr_limit_db
  let effective_i_thresh :=
    match acir_db_value with
    | some a => i_thr_dbm + a
    | none => i_thr_dbm
  let eirp_allowed :=
    effective_i_thresh + path_loss_db - g_rx_dbi + l_rx_losses_db + l_polarization_db
  match eirp_regulatory_max_dbm with
  | some cap => min eirp_allowed cap
  | none => eirp_allowed

/-- `allocator.psd_dbm_per_mhz_from_eirp`: `EIRP − 10 log10 B_MHz`.  The source
raises for `B ≤ 0`; grant rows in the verified scope use positive bandwidths. -/
def psd_dbm_per_mhz_from_eirp (eirp_total_dbm bandwidth_mhz : ℝ) : ℝ :=
  eirp_total_dbm - 10 * log10 bandwidth_mhz

/-- `allocator.allowed_eirp_dbm_with_spec`: wrapper filling receiver gain,
losses, polarization mismatch, ACIR and the regulatory cap from the spec. -/
def allowed_eirp_dbm_with_spec (n_dbm inr_limit_db path_loss_db : ℝ) (spec : SpecParameters)
    (channel_offset_mhz : Option ℤ) (eirp_regulatory_max_dbm : Option ℝ)
    (l_polarization_db : Option ℝ) : ℝ :=
  let cap := eirp_regulatory_max_dbm.getD spec.wifi_limits.max_eirp_dbm
  let lpol := l_polarization_db.getD spec.incumbent.polarization_mismatch_db
  let acir_val : Option ℝ :=
    match channel_offset_mhz with
    | some off => if 0 < off then some (acir_db_from_spec spec.acir off) else none
    | none => none
  allowed_eirp_dbm_for_path n_dbm inr_limit_db path_loss_db
    spec.incumbent.antenna_gain_dbi spec.incumbent.rx_losses_db lpol acir_val (some cap)

/-- Environment tags accepted by `propagation.environment_extra_loss_db`. -/
inductive EnvTag | urban | suburban | rural | indoor
deriving DecidableEq

/-- `propagation.environment_extra_loss_db`. -/
def environment_extra_loss_db : EnvTag → ℝ
  | .urban => 8
  | .suburban => 4
  | .rural => 1
  | .indoor => 12

/-- `propagation.building_penetration_loss_db`. -/
def building_penetration_loss_db (indoor : Bool) (penetration_db : Option ℝ) : ℝ :=
  match penetration_db with
  | some p => max 0 p
  | none => if indoor then 12 else 0

/-- `propagation.winner2_pathloss_db` with its default exponent 2.1,
reference distance 1 m and no additional loss (the only way it is called in
the verified scope). -/
def winner2_pathloss_db (distance_m frequency_hz : ℝ) : ℝ :=
  fspl_db (max 1 1e-3) frequency_hz + 10 * 2.1 * log10 (max distance_m 1 / 1) + 0

/-- `propagation.itm_pathloss_db` with no terrain profile: FSPL plus
`0.1 dB` per decade of distance. -/
def itm_pathloss_db (distance_m frequency_hz : ℝ) : ℝ :=
  fspl_db distance_m frequency_hz + 10 * log10 (max distance_m 1) * 0.1

/-- Path model selector strings accepted by `propagation.select_pathloss_db`. -/
inductive Selector | fspl | winner2 | itm
deriving DecidableEq

/-- `propagation.select_pathloss_db`: explicit selector or the automatic
WINNER-II/ITM split at `winner_threshold_m`, plus environment and penetration
adders.  A `"two_slope"` selector string reaches the `ValueError` branch in
the source; the verified call sites never pass it. -/
def select_pathloss_db (distance_m frequency_hz : ℝ) (selector : Option Selector)
    (winner_threshold_m : ℝ) (environment : Option EnvTag) (indoor : Bool)
    (penetration_db : Option ℝ) : ℝ :=
  let pl :=
    if selector = some .fspl then fspl_db distance_m frequency_hz
    else if selector = some .winner2 ∨ (selector = none ∧ distance_m < winner_threshold_m) then
      winner2_pathloss_db distance_m frequency_hz
    else itm_pathloss_db distance_m frequency_hz
  let pl := match environment with
    | some env => pl + environment_extra_loss_db env
    | none => pl
  pl + building_penetration_loss_db indoor penetration_db

/-- `itm.longley_rice_pathloss_db` as called from the grant-table builder:
`tx_height_m = 10`, default reliability 50 %, climate drawn from the
environment tag (none of the four tags contains "mar" or "tropic", so a
present climate always contributes 3 dB). -/
def longley_rice_pathloss_db (distance_m frequency_hz : ℝ) (tx_height_m : Option ℝ)
    (rx_height_m : Option ℝ) (climate : Option EnvTag) : ℝ :=
  let base := fspl_db distance_m frequency_hz
  let h_tx := max 1 (tx_height_m.getD 10)
  let h_rx := max 1 (rx_height_m.getD 10)
  let height_term := -2 * log10 (h_tx * h_rx)
  let dist_term := 6 * log10 (max distance_m 1 / 1000)
  let climate_term : ℝ := match climate with
    | some _ => 3
    | none => 0
  base + max 0 (dist_term + climate_term + 0 + height_term)

/-- Python `math.atan2 y x`, modelled by the argument of the complex number
`x + y i` (range `(-π, π]`; Python's handling of signed zero at the branch cut
is outside the real-number model). -/
def atan2 (y x : ℝ) : ℝ := Complex.arg ⟨x, y⟩

/-- Degrees to radians (`math.radians`). -/
def radians (d : ℝ) : ℝ := d * π / 180

/-- Radians to degrees (`math.degrees`). -/
def degrees (r : ℝ) : ℝ := r * 180 / π

/-- `geodesy.haversine_distance_m`. -/
def haversine_distance_m (lat1_deg lon1_deg lat2_deg lon2_deg : ℝ) : ℝ :=
  let lat1 := radians lat1_deg
  let lon1 := radians lon1_deg
  let lat2 := radians lat2_deg
  let lon2 := radians lon2_deg
  let dlat := lat2 - lat1
  let dlon := lon2 - lon1
  let a := Real.sin (dlat / 2) ^ 2 +
    Real.cos lat1 * Real.cos lat2 * Real.sin (dlon / 2) ^ 2
  let c := 2 * atan2 (Real.sqrt a) (Real.sqrt (1 - a))
  rEarth * c

/-- `geodesy.initial_bearing_deg`. -/
def initial_bearing_deg (lat1_deg lon1_deg lat2_deg lon2_deg : ℝ) : ℝ :=
  let lat1 := radians lat1_deg
  let lat2 := radians lat2_deg
  let dlon := radians (lon2_deg - lon1_deg)
  let x := Real.sin dlon * Real.cos lat2
  let y := Real.cos lat1 * Real.sin lat2 - Real.sin lat1 * Real.cos lat2 * Real.cos dlon
  let brng := degrees (atan2 x y)
  pyMod (brng + 360) 360

/-- `antenna.AntennaPatternParams`. -/
structure AntennaPatternParams where
  g_max_dbi : ℝ
  hpbw_az_deg : ℝ
  hpbw_el_deg : ℝ
  sidelobe_floor_db : ℝ
  backlobe_floor_dbi : ℝ

/-- `AntennaPatternParams(g_max_dbi=g)` with the dataclass defaults. -/
def mkPattern (g : ℝ) : AntennaPatternParams := ⟨g, 3, 3, 20, -10⟩

/-- `antenna.off_axis_azimuth_deg`. -/
def off_axis_azimuth_deg (antenna_azimuth_deg bearing_to_target_deg : ℝ) : ℝ :=
  |pyMod (bearing_to_target_deg - antenna_azimuth_deg + 180) 360 - 180|

/-- `antenna._attenuation_parabolic`. -/
def attenuation_parabolic (delta_deg hpbw_deg sidelobe_floor_db : ℝ) : ℝ :=
  if hpbw_deg ≤ 0 then sidelobe_floor_db
  else min (12 * (delta_deg / hpbw_deg) ^ 2) sidelobe_floor_db

/-- `antenna.effective_gain_dbi`. -/
def effective_gain_dbi (pattern : AntennaPatternParams)
    (azimuth_offaxis_deg elevation_offaxis_deg : ℝ) : ℝ :=
  let a_az := attenuation_parabolic |azimuth_offaxis_deg| pattern.hpbw_az_deg
    pattern.sidelobe_floor_db
  let a_el := attenuation_parabolic |elevation_offaxis_deg| pattern.hpbw_el_deg
    pattern.sidelobe_floor_db
  max (pattern.g_max_dbi - (a_az + a_el)) pattern.backlobe_floor_dbi

/-- `antenna_rpe.interpolate_rpe_db`: same sort/dedup/interpolation kernel as
the mask interpolator, on `|angle|`, returning `0.0` on an empty table. -/
def interpolate_rpe_db (angle_deg : ℝ) (rpe_points : List (ℝ × ℝ)) : ℝ :=
  match sortedPoints rpe_points with
  | [] => 0
  | p :: rest =>
      let x := |angle_deg|
      if x ≤ p.1 then p.2 else interpAux x p rest

/-- `antenna_rpe.combined_rpe_gain_dbi` (default backlobe floor −10 dBi at
every call site in the verified scope). -/
def combined_rpe_gain_dbi (g_max_dbi az_off_deg el_off_deg : ℝ)
    (az_rpe_pts el_rpe_pts : List (ℝ × ℝ)) : ℝ :=
  let az_att := interpolate_rpe_db az_off_deg az_rpe_pts
  let el_att := interpolate_rpe_db el_off_deg el_rpe_pts
  max (g_max_dbi - (az_att + el_att)) (-10)

end RealFns

noncomputable section GrantTable

open Real

/-- `grant_table.enumerate_centers_mhz`.  The Python `while` loop starting at
`c₀ = 5955 + n₀·step` and stepping by `step` while `c + bw/2 ≤ upper` is
rendered in closed form: iteration `k` exists exactly when
`k ≤ ⌊(upper − bw/2 − c₀)/step⌋`.  For `bandwidth ≤ 0` the source divides by
zero or loops forever; that case is excluded by hypotheses. -/
def enumerate_centers_mhz (lower_mhz upper_mhz bandwidth_mhz : ℝ) : List ℝ :=
  if bandwidth_mhz ≤ 0 then []
  else
    let step := bandwidth_mhz
    let n0 : ℤ := ⌊(lower_mhz - 5955 + step - 1e-9) / step⌋
    let c0 : ℝ := 5955 + n0 * step
    let count : ℕ := (⌊(upper_mhz - bandwidth_mhz / 2 - c0) / step⌋ + 1).toNat
    (List.range count).filterMap (fun k =>
      let c := c0 + k * step
      if lower_mhz - 1e-9 ≤ c - bandwidth_mhz / 2 ∧ c + bandwidth_mhz / 2 ≤ upper_mhz + 1e-9
      then some c else none)

/-- `grant_table.channel_number_from_center_mhz`.  Python `round` rounds
half-to-even while Mathlib's `round` rounds half up; they agree away from
exact half-integers, and `(center − 5955)/5` is never a half-integer on the
5 MHz channel grid. -/
def channel_number_from_center_mhz (center_mhz : ℝ) : ℤ :=
  round (1 + (center_mhz - 5955) / 5)

/-- `grant_table.GrantRow`. -/
structure GrantRow where
  channel_number : ℤ
  center_mhz : ℝ
  bandwidth_mhz : ℝ
  offset_mhz : ℤ
  path_loss_db : ℝ
  noise_dbm : ℝ
  allowed_eirp_dbm : ℝ
  allowed_psd_dbm_per_mhz : ℝ
  decision : String
  limiting_incumbent : Option String
  limiting_mode : Option String
  acir_db_used : Option ℝ

instance : Inhabited GrantRow :=
  ⟨⟨0, 0, 0, 0, 0, 0, 0, 0, "", none, none, none⟩⟩

/-- The per-(bandwidth, center) body of
`grant_table.build_grant_table_for_hypothetical_fs`. -/
def hypoRow (spec : SpecParameters) (distance_m fs_center_mhz : ℝ) (inr_limit_db : ℝ)
    (environment : Option EnvTag) (override_fs_bandwidth_hz : Option ℝ)
    (emission_designator : Option String) (device_constraints : Option DeviceConstraints)
    (indoor : Bool) (penetration_db : Option ℝ) (protection_margin_db : ℝ)
    (bw center : ℝ) : GrantRow :=
  let offset := |center - fs_center_mhz|
  let f_hz := center * 1e6
  let pl_db := select_pathloss_db distance_m f_hz none 5000 environment indoor penetration_db
  let n_bw := determine_fs_noise_bw_hz spec emission_designator override_fs_bandwidth_hz none
  let n_dbm := noise_power_dbm n_bw spec.incumbent.noise_figure_db
  let fs_bw_mhz := n_bw / 1e6
  let ch_lo := center - bw / 2
  let ch_hi := center + bw / 2
  let fs_lo := fs_center_mhz - fs_bw_mhz / 2
  let fs_hi := fs_center_mhz + fs_bw_mhz / 2
  let overlaps := min ch_hi fs_hi - max ch_lo fs_lo
  let base_eirp := allowed_eirp_dbm_with_spec n_dbm (inr_limit_db - protection_margin_db)
    pl_db spec none none none
  let acir_val :=
    if 0 < overlaps then (0 : ℝ)
    else
      let masks := ensure_defaults spec.acir.a_tx_db_by_offset_mhz spec.acir.a_rx_db_by_offset_mhz
      acir_db_from_masks offset (dictPoints masks.1) (dictPoints masks.2)
  let eirp_dbm := if 0 < overlaps then base_eirp else base_eirp + acir_val
  let psd_dbm_mhz := psd_dbm_per_mhz_from_eirp eirp_dbm bw
  let decision :=
    match device_constraints with
    | some dc => if apply_constraints_to_decision eirp_dbm psd_dbm_mhz dc then "grant" else "deny"
    | none => if 0 ≤ eirp_dbm then "grant" else "deny"
  { channel_number := channel_number_from_center_mhz center
    center_mhz := center
    bandwidth_mhz := bw
    offset_mhz := round offset
    path_loss_db := pl_db
    noise_dbm := n_dbm
    allowed_eirp_dbm := eirp_dbm
    allowed_psd_dbm_per_mhz := psd_dbm_mhz
    decision := decision
    limiting_incumbent := none
    limiting_mode := some (if 0 < overlaps then "co" else "adj")
    acir_db_used := if 0 < overlaps then none else some acir_val }

/-- `grant_table.build_grant_table_for_hypothetical_fs`: one row per
(bandwidth, aligned center).  The `override_fs_gain_dbi` parameter is accepted
and never read, as in the source. -/
def build_grant_table_for_hypothetical_fs (spec : SpecParameters)
    (distance_m lower_mhz upper_mhz fs_center_mhz : ℝ) (bandwidths_mhz : List ℝ)
    (inr_limit_db : ℝ) (environment : Option EnvTag) (override_fs_bandwidth_hz : Option ℝ)
    (emission_designator : Option String) (override_fs_gain_dbi : Option ℝ)
    (device_constraints : Option DeviceConstraints) (indoor : Bool)
    (penetration_db : Option ℝ) (protection_margin_db : ℝ) : List GrantRow :=
  bandwidths_mhz.flatMap (fun bw =>
    (enumerate_centers_mhz lower_mhz upper_mhz bw).map
      (hypoRow spec distance_m fs_center_mhz inr_limit_db environment override_fs_bandwidth_hz
        emission_designator device_constraints indoor penetration_db protection_margin_db bw))

end GrantTable

/-- A passive repeater site attached to an incumbent record (one entry of the
`passive_sites` list; `none` fields model absent dictionary keys). -/
structure PassiveSite where
  lat : Option ℝ
  lon : Option ℝ
  gain_dbi : Option ℝ
  az_deg : Option ℝ
  polarization : Option String
  rpe_az : Option (List (ℝ × ℝ))
  rpe_el : Option (List (ℝ × ℝ))
  height_m : Option ℝ

/-- An incumbent record as consumed by `build_grant_table_with_incumbents`
(a ULS-like dict; `none` fields model absent keys, and the loader's alias
normalisation is assumed to have happened at the boundary). -/
structure IncRecord where
  freq_center_mhz : ℝ
  bandwidth_mhz : ℝ
  link_id : Option String
  rx_lat : Option ℝ
  rx_lon : Option ℝ
  rx_antenna_gain_dbi : Option ℝ
  rx_antenna_azimuth_deg : Option ℝ
  polarization : Option String
  rx_rpe_az : Option (List (ℝ × ℝ))
  rx_rpe_el : Option (List (ℝ × ℝ))
  rx_antenna_height_m : Option ℝ
  passive_sites : Option (List PassiveSite)

/-- `str(pol).upper()[:1]`, modelled character-wise: upper-case every
character and keep the first (identical to `s.toUpper.take 1`). -/
def polTag (s : String) : String := String.mk ((s.data.map Char.toUpper).take 1)

/-- One protection site produced by the `_add_site` helper of
`build_grant_table_with_incumbents`. -/
structure ProtSite where
  fs_center_mhz : ℝ
  fs_bw_mhz : ℝ
  gain : ℝ
  lat : ℝ
  lon : ℝ
  az : ℝ
  pol : String
  rpe_az : Option (List (ℝ × ℝ))
  rpe_el : Option (List (ℝ × ℝ))
  height : Option ℝ
  link_id : String

noncomputable section GrantTableIncumbents

open Real

/-- Expansion of one incumbent record into its primary protection site plus
the optional passive sites (`_add_site` calls in
`build_grant_table_with_incumbents`). -/
def expandSites (spec : SpecParameters) (inc : IncRecord) : List ProtSite :=
  let root := inc.link_id.getD "unknown"
  let primary : ProtSite :=
    { fs_center_mhz := inc.freq_center_mhz
      fs_bw_mhz := inc.bandwidth_mhz
      gain := inc.rx_antenna_gain_dbi.getD spec.incumbent.antenna_gain_dbi
      lat := inc.rx_lat.getD 0
      lon := inc.rx_lon.getD 0
      az := inc.rx_antenna_azimuth_deg.getD 0
      pol := polTag (inc.polarization.getD "")
      rpe_az := inc.rx_rpe_az
      rpe_el := inc.rx_rpe_el
      height := inc.rx_antenna_height_m
      link_id := root }
  let passives :=
    match inc.passive_sites with
    | some pss =>
        pss.enum.map (fun ips =>
          let ps := ips.2
          { fs_center_mhz := inc.freq_center_mhz
            fs_bw_mhz := inc.bandwidth_mhz
            gain := ((ps.gain_dbi).orElse (fun _ => inc.rx_antenna_gain_dbi)).getD
              spec.incumbent.antenna_gain_dbi
            lat := ((ps.lat).orElse (fun _ => inc.rx_lat)).getD 0
            lon := ((ps.lon).orElse (fun _ => inc.rx_lon)).getD 0
            az := ((ps.az_deg).orElse (fun _ => inc.rx_antenna_azimuth_deg)).getD 0
            pol := polTag (((ps.polarization).orElse (fun _ => inc.polarization)).getD "")
            rpe_az := (ps.rpe_az).orElse (fun _ => inc.rx_rpe_az)
            rpe_el := (ps.rpe_el).orElse (fun _ => inc.rx_rpe_el)
            height := (ps.height_m).orElse (fun _ => inc.rx_antenna_height_m)
            link_id := root ++ ":PS" ++ toString (ips.1 + 1) : ProtSite })
    | none => []
  primary :: passives

/-- Python truthiness of an optional RPE table (`if rpe_az and rpe_el`):
present and non-empty. -/
def rpeTruthy : Option (List (ℝ × ℝ)) → Bool
  | some l => !l.isEmpty
  | none => false

/-- The per-site body of the incumbent loop in
`build_grant_table_with_incumbents`: returns
`(eirp, path loss, mode, acir used)` for one protection site. -/
def siteEval (spec : SpecParameters) (inr_limit_db protection_margin_db : ℝ)
    (environment : Option EnvTag) (path_model : String) (indoor : Bool)
    (penetration_db : Option ℝ) (distance_m : Option ℝ) (ap_lat ap_lon : Option ℝ)
    (bw center f_hz : ℝ) (s : ProtSite) : ℝ × ℝ × String × Option ℝ :=
  let offset := |center - s.fs_center_mhz|
  let ch_lo := center - bw / 2
  let ch_hi := center + bw / 2
  let fs_lo := s.fs_center_mhz - s.fs_bw_mhz / 2
  let fs_hi := s.fs_center_mhz + s.fs_bw_mhz / 2
  let overlaps := min ch_hi fs_hi - max ch_lo fs_lo
  let dbrg : ℝ × Option ℝ :=
    match distance_m with
    | some d => (d, none)
    | none =>
        let lat0 := ap_lat.getD 41
        let lon0 := ap_lon.getD 29
        (haversine_distance_m lat0 lon0 s.lat s.lon,
         some (initial_bearing_deg lat0 lon0 s.lat s.lon))
  let d_m := dbrg.1
  let pl_db_inc :=
    if path_model = "fspl" then
      select_pathloss_db d_m f_hz (some .fspl) 5000 environment indoor penetration_db
    else if path_model = "winner" then
      select_pathloss_db d_m f_hz (some .winner2) 5000 environment indoor penetration_db
    else if path_model = "two_slope" then
      select_pathloss_db d_m f_hz none 5000 environment indoor penetration_db
    else if path_model = "itm" then
      longley_rice_pathloss_db d_m f_hz (some 10)
        (match s.height with
         | some h => if h = 0 then none else some h
         | none => none)
        environment
    else select_pathloss_db d_m f_hz none 5000 environment indoor penetration_db
  let g_eff :=
    match dbrg.2 with
    | some brg =>
        let delta_az := off_axis_azimuth_deg s.az (pyMod (brg + 180) 360)
        if rpeTruthy s.rpe_az ∧ rpeTruthy s.rpe_el then
          combined_rpe_gain_dbi s.gain delta_az 0 (s.rpe_az.getD []) (s.rpe_el.getD [])
        else effective_gain_dbi (mkPattern s.gain) delta_az 0
    | none => s.gain
  let n_bw := spec.incumbent.bandwidth_hz
  let n_dbm := noise_power_dbm n_bw spec.incumbent.noise_figure_db
  let lpol : ℝ := if s.pol = "H" ∨ s.pol = "V" then 3 else 0
  let base := allowed_eirp_dbm_with_spec n_dbm (inr_limit_db - protection_margin_db)
    pl_db_inc spec none none (some lpol)
  if 0 < overlaps then (base, pl_db_inc, "co", none)
  else
    let masks := ensure_defaults spec.acir.a_tx_db_by_offset_mhz spec.acir.a_rx_db_by_offset_mhz
    let acir_val := acir_db_from_masks offset (dictPoints masks.1) (dictPoints masks.2)
    (base + acir_val, pl_db_inc, "adj", some acir_val)

/-- The running state of the incumbent loop: the best (lowest) EIRP so far,
the matching path loss, and the `limiting`/`limiting_mode`/`limiting_acir`
locals, which stay unassigned (`none`) until some site strictly lowers the
EIRP — exactly the Python local-variable behaviour. -/
def siteFold (spec : SpecParameters) (inr_limit_db protection_margin_db : ℝ)
    (environment : Option EnvTag) (path_model : String) (indoor : Bool)
    (penetration_db : Option ℝ) (distance_m : Option ℝ) (ap_lat ap_lon : Option ℝ)
    (bw center f_hz : ℝ) :
    List ProtSite → ℝ × Option ℝ × Option (String × String × Option ℝ) →
    ℝ × Option ℝ × Option (String × String × Option ℝ)
  | [], st => st
  | s :: rest, (best, bestPl, lim) =>
      let r := siteEval spec inr_limit_db protection_margin_db environment path_model indoor
        penetration_db distance_m ap_lat ap_lon bw center f_hz s
      let st' :=
        if r.1 < best then (r.1, some r.2.1, some (s.link_id, r.2.2.1, r.2.2.2))
        else (best, bestPl, lim)
      siteFold spec inr_limit_db protection_margin_db environment path_model indoor
        penetration_db distance_m ap_lat ap_lon bw center f_hz rest st'

/-- The per-(bandwidth, center) body of `build_grant_table_with_incumbents`.
Referencing the never-assigned `limiting` local raises `UnboundLocalError` in
Python, modelled as `Except.error`. -/
def incRow (spec : SpecParameters) (incParams : List ProtSite) (distance_m : Option ℝ)
    (ap_lat ap_lon : Option ℝ) (inr_limit_db : ℝ) (environment : Option EnvTag)
    (path_model : String) (device_constraints : Option DeviceConstraints) (indoor : Bool)
    (penetration_db : Option ℝ) (protection_margin_db : ℝ) (bw center : ℝ) :
    Except String GrantRow :=
  let f_hz := center * 1e6
  let n_bw := spec.incumbent.bandwidth_hz
  let n_dbm := noise_power_dbm n_bw spec.incumbent.noise_figure_db
  let st := siteFold spec inr_limit_db protection_margin_db environment path_model indoor
    penetration_db distance_m ap_lat ap_lon bw center f_hz incParams
    (spec.wifi_limits.max_eirp_dbm, none, none)
  let best_eirp := st.1
  let best_pl_db :=
    match st.2.1 with
    | some p => p
    | none => select_pathloss_db (distance_m.getD 3000) f_hz none 5000 environment false none
  match st.2.2 with
  | none => .error "UnboundLocalError: local variable referenced before assignment"
  | some lim =>
      let psd_dbm_mhz := psd_dbm_per_mhz_from_eirp best_eirp bw
      let decision :=
        match device_constraints with
        | some dc =>
            if apply_constraints_to_decision best_eirp psd_dbm_mhz dc then "grant" else "deny"
        | none => if 0 ≤ best_eirp then "grant" else "deny"
      .ok
        { channel_number := channel_number_from_center_mhz center
          center_mhz := center
          bandwidth_mhz := bw
          offset_mhz := 0
          path_loss_db := best_pl_db
          noise_dbm := n_dbm
          allowed_eirp_dbm := best_eirp
          allowed_psd_dbm_per_mhz := psd_dbm_mhz
          decision := decision
          limiting_incumbent := some lim.1
          limiting_mode := some lim.2.1
          acir_db_used := lim.2.2 }

/-- `grant_table.build_grant_table_with_incumbents`. -/
def build_grant_table_with_incumbents (spec : SpecParameters) (incumbents : List IncRecord)
    (distance_m : Option ℝ) (ap_lat ap_lon : Option ℝ) (lower_mhz upper_mhz : ℝ)
    (bandwidths_mhz : List ℝ) (inr_limit_db : ℝ) (environment : Option EnvTag)
    (path_model : String) (device_constraints : Option DeviceConstraints) (indoor : Bool)
    (penetration_db : Option ℝ) (protection_margin_db : ℝ) : Except String (List GrantRow) :=
  let incParams := incumbents.flatMap (expandSites spec)
  (bandwidths_mhz.flatMap (fun bw =>
    (enumerate_centers_mhz lower_mhz upper_mhz bw).map (fun center => (bw, center)))).mapM
    (fun p =>
      incRow spec incParams distance_m ap_lat ap_lon inr_limit_db environment path_model
        device_constraints indoor penetration_db protection_margin_db p.1 p.2)

/-- `spectrum_inquiry.spectrum_inquiry`: one grant table per band range,
concatenated. -/
def spectrum_inquiry (spec : SpecParameters) (incumbents : List IncRecord)
    (ap_lat ap_lon : ℝ) (band_ranges_mhz : List (ℝ × ℝ)) (bandwidths_mhz : List ℝ)
    (inr_limit_db : ℝ) (environment : Option EnvTag) (path_model : String)
    (device_constraints : Option DeviceConstraints) (indoor : Bool)
    (penetration_db : Option ℝ) (protection_margin_db : ℝ) : Except String (List GrantRow) := do
  let tables ← band_ranges_mhz.mapM (fun r =>
    build_grant_table_with_incumbents spec incumbents none (some ap_lat) (some ap_lon)
      r.1 r.2 bandwidths_mhz inr_limit_db environment path_model device_constraints indoor
      penetration_db protection_margin_db)
  return tables.flatten

end GrantTableIncumbents

/-- One `availableFrequencyInfo` entry. -/
structure FreqInfo where
  lowMHz : ℝ
  highMHz : ℝ
  maxPsd : ℝ

/-- One `availableChannelInfo` entry. -/
structure ChanInfo where
  channelCfi : List ℤ
  maxEirp : List ℝ
  globalOperatingClass : Option ℤ
  bandwidthMHz : Option ℝ

/-- The `supplementalInfo` object (each response sets exactly one key). -/
structure SupplementalInfo where
  missingParams : Option (List String)
  invalidParams : Option (List String)
  unexpectedParams : Option (List String)

/-- A spectrum-inquiry response.  `availabilityExpireTime` is a wall-clock
ISO-8601 timestamp in the source; only its presence is modelled. -/
structure SpectrumResponse where
  responseCode : ℤ
  supplementalInfo : Option SupplementalInfo
  hasExpireTime : Bool
  availableFrequencyInfo : Option (List FreqInfo)
  availableChannelInfo : Option (List ChanInfo)

/-- The `location` dict: numeric-or-absent coordinates (a non-numeric value
fails `_is_number` exactly like an absent one for the validation outcome) and
presence flags for the three horizontal-uncertainty fields. -/
structure LocationDict where
  lat : Option ℝ
  lon : Option ℝ
  hasEllipse : Bool
  hasLinearPolygon : Bool
  hasRadialPolygon : Bool

/-- The optional `device` wrapper. -/
structure DeviceDict where
  location : Option LocationDict

/-- The optional `certification` dict. -/
structure CertificationDict where
  id : Option String
  serialNumber : Option String

/-- One inquired frequency range: either `lowMHz`/`highMHz` keys or
`startMHz`/`endMHz` keys (or neither, the `KeyError → INVALID_VALUE` case). -/
structure FreqRangeDict where
  lowHigh : Option (ℝ × ℝ)
  startEnd : Option (ℝ × ℝ)

/-- The representations of `inquiredFrequencyRange` the handler distinguishes:
absent, a single dict, or a list (any other type behaves as absent). -/
inductive FreqField
  | absent
  | single (fr : FreqRangeDict)
  | list (frs : List FreqRangeDict)

/-- The `channelCfi` value of a channel item: absent key, present but not a
list of ints, or a list of ints. -/
inductive CfiField
  | missing
  | bad
  | ints (cfis : List ℤ)

/-- One `inquiredChannels` item (`isDict = false` models a non-dict entry). -/
structure ChanItemDict where
  isDict : Bool
  globalOperatingClass : Option ℤ
  channelCfi : CfiField
  bandwidthMHz : Option ℝ

/-- The representations of `inquiredChannels` the handler distinguishes:
a list, or anything else (treated as missing). -/
inductive ChanField
  | absent
  | list (items : List ChanItemDict)

/-- An `AvailableSpectrumInquiryRequest`-like dict, with the fields the
handler reads. -/
structure InquiryRequest where
  location : Option LocationDict
  device : Option DeviceDict
  certification : Option CertificationDict
  inquiredFrequencyRange : FreqField
  inquiredChannels : ChanField
  hasMinDesiredPower : Bool
  environment : Option EnvTag
  pathModel : Option String
  protectionMarginDb : Option ℝ
  mergeBins : Option Bool
  mergeToleranceDb : Option ℝ
  bandwidthMHz : Option ℝ

noncomputable section Protocol

open Real

/-- `protocol.nru_goc_to_bw_mhz`. -/
def nru_goc_to_bw_mhz (goc : ℤ) : Option ℝ :=
  if goc = 300 then some 20
  else if goc = 301 then some 40
  else if goc = 302 then some 60
  else if goc = 303 then some 80
  else if goc = 304 then some 100
  else none

/-- `protocol.nru_cfi_to_center_mhz`: `3000 + 15 (CFI − 600000)/1000`. -/
def nru_cfi_to_center_mhz (cfi : ℤ) : ℝ :=
  3000 + 15 * ((cfi : ℝ) - 600000) / 1000

/-- The bin-merging loop of the frequency-based path.  The accumulator is the
Python `merged` list held in reverse (its head is the mutated last element). -/
def mergeRev (tol : ℝ) : List (ℝ × ℝ × ℝ) → List (ℝ × ℝ × ℝ) → List (ℝ × ℝ × ℝ)
  | accRev, [] => accRev.reverse
  | [], b :: rest => mergeRev tol [b] rest
  | last :: accTail, b :: rest =>
      if |last.2.2 - b.2.2| < tol ∧ |last.2.1 - b.1| < (1e-9 : ℝ) then
        mergeRev tol ((last.1, b.2.1, last.2.2) :: accTail) rest
      else mergeRev tol (b :: last :: accTail) rest

/-- A response carrying only a code and one supplemental list. -/
def mkSuppResponse (code : ℤ) (supp : Option SupplementalInfo) : SpectrumResponse :=
  { responseCode := code
    supplementalInfo := supp
    hasExpireTime := false
    availableFrequencyInfo := none
    availableChannelInfo := none }

/-- The per-incumbent body of the 1 MHz-bin evaluation in the frequency-based
path of `handle_available_spectrum_inquiry`. -/
def binIncEval (spec : SpecParameters) (ap_lat ap_lon : ℝ) (env : EnvTag) (margin : ℝ)
    (txPoints rxPoints : List (ℝ × ℝ)) (center ch_lo ch_hi f_hz n_dbm : ℝ)
    (inc : IncRecord) : ℝ :=
  let fs_center_mhz := inc.freq_center_mhz
  let fs_bw_mhz := inc.bandwidth_mhz
  let rx_lat := inc.rx_lat.getD 0
  let rx_lon := inc.rx_lon.getD 0
  let fs_rx_gain := inc.rx_antenna_gain_dbi.getD spec.incumbent.antenna_gain_dbi
  let rx_az := inc.rx_antenna_azimuth_deg.getD 0
  let pol := polTag (inc.polarization.getD "")
  let d_m := haversine_distance_m ap_lat ap_lon rx_lat rx_lon
  let brg := initial_bearing_deg ap_lat ap_lon rx_lat rx_lon
  let pl_db := select_pathloss_db d_m f_hz none 5000 (some env) false none
  let delta_az := off_axis_azimuth_deg rx_az (pyMod (brg + 180) 360)
  let g_eff :=
    if rpeTruthy inc.rx_rpe_az ∧ rpeTruthy inc.rx_rpe_el then
      combined_rpe_gain_dbi fs_rx_gain delta_az 0 (inc.rx_rpe_az.getD []) (inc.rx_rpe_el.getD [])
    else effective_gain_dbi (mkPattern fs_rx_gain) delta_az 0
  let fs_lo := fs_center_mhz - fs_bw_mhz / 2
  let fs_hi := fs_center_mhz + fs_bw_mhz / 2
  let overlaps := min ch_hi fs_hi - max ch_lo fs_lo
  let lpol : ℝ := if pol = "H" ∨ pol = "V" then 3 else 0
  if 0 < overlaps then
    allowed_eirp_dbm_with_spec n_dbm (-6 - margin) pl_db spec none none (some lpol)
  else
    let offset := |center - fs_center_mhz|
    let acir_val := acir_db_from_masks offset txPoints rxPoints
    allowed_eirp_dbm_with_spec n_dbm (-6 - margin) pl_db spec none none (some lpol) + acir_val

/-- One `(low, high, psd)` bin of the frequency-based path. -/
def freqBin (spec : SpecParameters) (incumbents : List IncRecord) (ap_lat ap_lon : ℝ)
    (env : EnvTag) (margin : ℝ) (txPoints rxPoints : List (ℝ × ℝ)) (f : ℤ) : ℝ × ℝ × ℝ :=
  let center : ℝ := (f : ℝ) + 0.5
  let ch_lo : ℝ := (f : ℝ)
  let ch_hi : ℝ := ((f : ℝ) + 1)
  let f_hz := center * 1e6
  let n_dbm := noise_power_dbm spec.incumbent.bandwidth_hz spec.incumbent.noise_figure_db
  let best_eirp := incumbents.foldl
    (fun best inc =>
      let eirp := binIncEval spec ap_lat ap_lon env margin txPoints rxPoints center ch_lo ch_hi
        f_hz n_dbm inc
      if eirp < best then eirp else best)
    spec.wifi_limits.max_eirp_dbm
  (ch_lo, ch_hi, best_eirp)

/-- The per-range body of the frequency-based path: 1 MHz bins between the
truncated endpoints, optionally merged. -/
def rangeEntries (req : InquiryRequest) (spec : SpecParameters) (incumbents : List IncRecord)
    (ap_lat ap_lon : ℝ) (env : EnvTag) (margin lo hi : ℝ) : List FreqInfo :=
  let start_mhz : ℤ := pyTrunc lo
  let end_mhz : ℤ := pyTrunc hi
  let masks := ensure_defaults spec.acir.a_tx_db_by_offset_mhz spec.acir.a_rx_db_by_offset_mhz
  let txPoints := dictPoints masks.1
  let rxPoints := dictPoints masks.2
  let bins := (List.range (end_mhz - start_mhz).toNat).map (fun k : ℕ =>
    freqBin spec incumbents ap_lat ap_lon env margin txPoints rxPoints (start_mhz + (k : ℤ)))
  let merge_bins := req.mergeBins.getD true
  let tol := req.mergeToleranceDb.getD 1e-6
  let merged := if merge_bins then mergeRev tol [] bins else bins
  merged.map (fun b => ⟨b.1, b.2.1, b.2.2⟩)

/-- The range loop of the frequency-based path, with the early
`INVALID_VALUE` returns for malformed or empty ranges. -/
def freqLoop (req : InquiryRequest) (spec : SpecParameters) (incumbents : List IncRecord)
    (ap_lat ap_lon : ℝ) (env : EnvTag) (margin : ℝ) :
    List FreqRangeDict → List FreqInfo → SpectrumResponse
  | [], results =>
      { responseCode := 0
        supplementalInfo := none
        hasExpireTime := true
        availableFrequencyInfo := some results
        availableChannelInfo := none }
  | fr :: rest, results =>
      let bounds : Option (ℝ × ℝ) :=
        match fr.lowHigh with
        | some p => some p
        | none => fr.startEnd
      match bounds with
      | none => mkSuppResponse 103 (some ⟨none, some ["inquiredFrequencyRange"], none⟩)
      | some (lo, hi) =>
          if hi ≤ lo then mkSuppResponse 103 (some ⟨none, some ["inquiredFrequencyRange"], none⟩)
          else
            freqLoop req spec incumbents ap_lat ap_lon env margin rest
              (results ++ rangeEntries req spec incumbents ap_lat ap_lon env margin lo hi)

/-- Bandwidth resolution for one channel item: operating-class mapping, then
item-level `bandwidthMHz`, then request-level, then 20 MHz. -/
def resolveBw (req : InquiryRequest) (item : ChanItemDict) : ℝ :=
  let fromGoc : Option ℝ :=
    match item.globalOperatingClass with
    | some goc => nru_goc_to_bw_mhz goc
    | none => none
  match fromGoc with
  | some bw => bw
  | none =>
      match item.bandwidthMHz with
      | some bw => bw
      | none =>
          match req.bandwidthMHz with
          | some bw => bw
          | none => 20

/-- The first pass over channel items: collect `(center, bandwidth)` pairs and
invalid-parameter names, or return `UNSUPPORTED_BASIS` when an item has no
CFI list at all. -/
def collectCenters (req : InquiryRequest) :
    List ChanItemDict → List String → List (ℝ × ℝ) →
    Sum SpectrumResponse (List String × List (ℝ × ℝ))
  | [], invalid, centers => .inr (invalid, centers)
  | item :: rest, invalid, centers =>
      if !item.isDict then
        collectCenters req rest (invalid ++ ["inquiredChannels[]"]) centers
      else
        match item.channelCfi with
        | .missing => .inl (mkSuppResponse 301 none)
        | .bad => collectCenters req rest (invalid ++ ["channelCfi"]) centers
        | .ints cfis =>
            let bw := resolveBw req item
            collectCenters req rest invalid
              (centers ++ cfis.map (fun cfi => (nru_cfi_to_center_mhz cfi, bw)))

/-- Python `tuple(sorted({...}))` on bandwidths: the ascending list of the
distinct values (set order is arbitrary but the sorted output is unique). -/
def sortedDedupReal (l : List ℝ) : List ℝ := l.dedup.insertionSort (· ≤ ·)

/-- The second pass over one channel item: re-evaluate each CFI on a tiny
per-channel band and assemble the `availableChannelInfo` entry. -/
def chanItemInfo (req : InquiryRequest) (spec : SpecParameters) (incumbents : List IncRecord)
    (ap_lat ap_lon : ℝ) (item : ChanItemDict) : Except String ChanInfo := do
  let goc := item.globalOperatingClass
  let cfis := match item.channelCfi with
    | .ints l => l
    | _ => []
  let bw := resolveBw req item
  let maxEirpList ← cfis.mapM (fun cfi => do
    let fc := nru_cfi_to_center_mhz cfi
    let sub_rows ← spectrum_inquiry spec incumbents ap_lat ap_lon
      [(fc - bw / 2, fc + bw / 2)] [bw] (-6) (some (req.environment.getD .urban))
      (req.pathModel.getD "auto") none false none (req.protectionMarginDb.getD 0)
    return (match sub_rows.head? with
      | some r => r.allowed_eirp_dbm
      | none => (0 : ℝ)))
  return { channelCfi := cfis
           maxEirp := maxEirpList
           globalOperatingClass := goc
           bandwidthMHz := match goc with
             | some _ => none
             | none => some bw }

/-- `protocol.handle_available_spectrum_inquiry`.  Wall-clock expiry is
abstracted to a presence flag; exceptions escaping the handler (e.g. the
grant-table builder's unbound local) are `Except.error`. -/
def handle_available_spectrum_inquiry (request : InquiryRequest) (spec : SpecParameters)
    (incumbents : List IncRecord) (environment : Option EnvTag) (path_model : Option String)
    (protection_margin_db : Option ℝ) (certified_ids : Option (List String))
    (disallowed_ids : Option (List String))
    (disallowed_pairs : Option (List (String × String))) : Except String SpectrumResponse :=
  let req : InquiryRequest :=
    { request with
      environment := match environment with
        | some e => some e
        | none => request.environment
      pathModel := match path_model with
        | some m => some m
        | none => request.pathModel
      protectionMarginDb := match protection_margin_db with
        | some v => some v
        | none => request.protectionMarginDb }
  let loc : Option LocationDict :=
    match req.location with
    | some l => some l
    | none =>
        match req.device with
        | some d => d.location
        | none => none
  match loc with
  | none => .ok (mkSuppResponse 102 (some ⟨some ["location"], none, none⟩))
  | some l =>
      let missing :=
        (if l.lat.isNone then ["location.lat"] else []) ++
        (if l.lon.isNone then ["location.lon"] else [])
      let horiz :=
        (if l.hasEllipse then ["ellipse"] else []) ++
        (if l.hasLinearPolygon then ["linearPolygon"] else []) ++
        (if l.hasRadialPolygon then ["radialPolygon"] else [])
      if 1 < horiz.length then
        .ok (mkSuppResponse 106 (some ⟨none, none, some horiz⟩))
      else if missing ≠ [] then
        .ok (mkSuppResponse 102 (some ⟨some missing, none, none⟩))
      else
        let ap_lat := l.lat.getD 0
        let ap_lon := l.lon.getD 0
        let cert_id := req.certification.bind (·.id)
        let serial := req.certification.bind (·.serialNumber)
        let certInvalid :=
          match certified_ids, cert_id with
          | some ids, some cid => !ids.contains cid
          | _, _ => false
        let certDisallowed :=
          match disallowed_ids, cert_id with
          | some ids, some cid => ids.contains cid
          | _, _ => false
        let pairDisallowed :=
          match disallowed_pairs, cert_id, serial with
          | some ps, some cid, some ser => ps.contains (cid, ser)
          | _, _, _ => false
        if certInvalid then
          .ok (mkSuppResponse 103 (some ⟨none, some ["certification.id"], none⟩))
        else if certDisallowed then .ok (mkSuppResponse 101 none)
        else if pairDisallowed then .ok (mkSuppResponse 101 none)
        else
          let bothLists :=
            match req.inquiredFrequencyRange, req.inquiredChannels with
            | .list _, .list _ => true
            | _, _ => false
          if bothLists then
            .ok (mkSuppResponse 106
              (some ⟨none, none, some ["inquiredFrequencyRange", "inquiredChannels"]⟩))
          else
            let freqList : Option (List FreqRangeDict) :=
              match req.inquiredFrequencyRange with
              | .single fr => some [fr]
              | .list frs => some frs
              | .absent => none
            match freqList with
            | some frs =>
                if req.hasMinDesiredPower then
                  .ok (mkSuppResponse 106 (some ⟨none, none, some ["minDesiredPower"]⟩))
                else
                  let env := req.environment.getD .urban
                  let margin := req.protectionMarginDb.getD 0
                  .ok (freqLoop req spec incumbents ap_lat ap_lon env margin frs [])
            | none =>
                match req.inquiredChannels with
                | .absent =>
                    .ok (mkSuppResponse 102 (some ⟨some ["inquiredChannels"], none, none⟩))
                | .list items =>
                    if items.isEmpty then
                      .ok (mkSuppResponse 102 (some ⟨some ["inquiredChannels"], none, none⟩))
                    else
                      match collectCenters req items [] [] with
                      | .inl resp => .ok resp
                      | .inr (invalid, centers) =>
                          if invalid ≠ [] then
                            .ok (mkSuppResponse 103 (some ⟨none, some invalid.dedup, none⟩))
                          else do
                            let band_ranges := centers.map (fun c => (c.1 - c.2 / 2, c.1 + c.2 / 2))
                            let bandwidths := sortedDedupReal (centers.map (·.2))
                            let rows ← spectrum_inquiry spec incumbents ap_lat ap_lon band_ranges
                              bandwidths (-6) (some (req.environment.getD .urban))
                              (req.pathModel.getD "auto") none false none
                              (req.protectionMarginDb.getD 0)
                            let available ← items.mapM
                              (chanItemInfo req spec incumbents ap_lat ap_lon)
                            return { responseCode := 0
                                     supplementalInfo := none
                                     hasExpireTime := true
                                     availableFrequencyInfo := none
                                     availableChannelInfo := some available }

end Protocol

/-- The rows of a grant-table computation that completed without raising. -/
def rowsOf : Except String (List GrantRow) → List GrantRow
  | .ok l => l
  | .error _ => []

noncomputable section Theorems

open Real

lemma cLight_pos : (0 : ℝ) < cLight := by unfold cLight; norm_num

lemma invert_fspl_exact {d f : ℝ} (hd : 0 < d) (hf : 0 < f) :
    invert_fspl_distance_m (fspl_db d f) f = d := by
  have hc := cLight_pos
  have hπ : (0 : ℝ) < π := Real.pi_pos
  have hX : 0 < 4 * π * d * f / cLight := by positivity
  unfold invert_fspl_distance_m fspl_db pow10 log10
  rw [show 20 * Real.logb 10 (4 * π * d * f / cLight) / 20
      = Real.logb 10 (4 * π * d * f / cLight) by ring]
  rw [Real.rpow_logb (by norm_num) (by norm_num) hX]
  field_simp
  ring

/-- C9: FSPL round-trip.  Inverting the free-space path loss recovers the
distance for every positive distance and frequency; in the real-number model
the round trip is exact, so the relative error is below `1e-9`. -/
theorem C9_fspl_round_trip (d f : ℝ) (hd : 0 < d) (hf : 0 < f) :
    |invert_fspl_distance_m (fspl_db d f) f - d| < 1e-9 * d := by
  rw [invert_fspl_exact hd hf]
  simp only [sub_self, abs_zero]
  positivity

/-- Witness for C9 at `d = 100 m`, `f = 6 GHz`. -/
theorem C9_fspl_round_trip_witness :
    (0 : ℝ) < 100 ∧ (0 : ℝ) < 6e9 ∧
      |invert_fspl_distance_m (fspl_db 100 6e9) 6e9 - 100| < 1e-9 * 100 :=
  ⟨by norm_num, by norm_num,
    C9_fspl_round_trip 100 6e9 (by norm_num) (by norm_num)⟩

/-- C6: FS noise-bandwidth precedence.  (1) An emission designator that parses
to a strictly positive bandwidth wins regardless of all other inputs; (2) when
it is absent or does not parse to a positive value, a strictly positive
explicit receiver bandwidth wins; (3) then a strictly positive recorded
channel bandwidth; (4) otherwise the parameter-set default is returned. -/
theorem C6_fs_bw_precedence (spec : SpecParameters) (ed : Option String) (ex ul : Option ℝ) :
    (∀ d b, ed = some d → parse_emission_designator_bw_hz d = some b → 0 < b →
      determine_fs_noise_bw_hz spec ed ex ul = (b : ℝ)) ∧
    ((∀ d b, ed = some d → parse_emission_designator_bw_hz d = some b → ¬0 < b) →
      ∀ e, ex = some e → 0 < e → determine_fs_noise_bw_hz spec ed ex ul = e) ∧
    ((∀ d b, ed = some d → parse_emission_designator_bw_hz d = some b → ¬0 < b) →
      (∀ e, ex = some e → ¬0 < e) →
      ∀ u, ul = some u → 0 < u → determine_fs_noise_bw_hz spec ed ex ul = u) ∧
    ((∀ d b, ed = some d → parse_emission_designator_bw_hz d = some b → ¬0 < b) →
      (∀ e, ex = some e → ¬0 < e) → (∀ u, ul = some u → ¬0 < u) →
      determine_fs_noise_bw_hz spec ed ex ul = spec.incumbent.bandwidth_hz) := by
  have tail1 : ∀ e, ex = some e → 0 < e →
      determine_fs_noise_bw_tail spec ex ul = e := by
    intro e he hpos
    subst he
    simp [determine_fs_noise_bw_tail, hpos]
  have tail2 : (∀ e, ex = some e → ¬0 < e) → ∀ u, ul = some u → 0 < u →
      determine_fs_noise_bw_tail spec ex ul = u := by
    intro hex u hu hpos
    subst hu
    cases ex with
    | none => simp [determine_fs_noise_bw_tail, hpos]
    | some e => simp [determine_fs_noise_bw_tail, hex e rfl, hpos]
  have tail3 : (∀ e, ex = some e → ¬0 < e) → (∀ u, ul = some u → ¬0 < u) →
      determine_fs_noise_bw_tail spec ex ul = spec.incumbent.bandwidth_hz := by
    intro hex hul
    cases ex with
    | none =>
        cases ul with
        | none => simp [determine_fs_noise_bw_tail]
        | some u => simp [determine_fs_noise_bw_tail, hul u rfl]
    | some e =>
        cases ul with
        | none => simp [determine_fs_noise_bw_tail, hex e rfl]
        | some u => simp [determine_fs_noise_bw_tail, hex e rfl, hul u rfl]
  have edCase : ∀ P : Prop,
      ((∀ d b, ed = some d → parse_emission_designator_bw_hz d = some b → ¬0 < b) →
        determine_fs_noise_bw_hz spec ed ex ul = determine_fs_noise_bw_tail spec ex ul) := by
    intro _ hno
    cases ed with
    | none => simp [determine_fs_noise_bw_hz]
    | some d =>
        by_cases hd : d = ""
        · simp [determine_fs_noise_bw_hz, hd]
        · cases hp : parse_emission_designator_bw_hz d with
          | none => simp [determine_fs_noise_bw_hz, hd, hp]
          | some b => simp [determine_fs_noise_bw_hz, hd, hp, hno d b rfl hp]
  refine ⟨?_, ?_, ?_, ?_⟩
  · intro d b hed hp hpos
    subst hed
    have hd : d ≠ "" := by
      intro h
      subst h
      simp [parse_emission_designator_bw_hz] at hp
    simp [determine_fs_noise_bw_hz, hd, hp, hpos]
  · intro hno e he hpos
    rw [edCase True hno]
    exact tail1 e he hpos
  · intro hno hex u hu hpos
    rw [edCase True hno]
    exact tail2 hex u hu hpos
  · intro hno hex hul
    rw [edCase True hno]
    exact tail3 hex hul

/-- Witness for C6: `"25M0F7W"` resolves to 25 MHz and beats an explicit
1 Hz bandwidth, a recorded 2 Hz bandwidth and the spec default. -/
theorem C6_fs_bw_precedence_witness :
    parse_emission_designator_bw_hz "25M0F7W" = some 25000000 ∧
    (0 : ℚ) < 25000000 ∧
    determine_fs_noise_bw_hz ⟨⟨5, 20e6, 30, 1, 0⟩, ⟨36⟩, ⟨[], []⟩⟩
      (some "25M0F7W") (some 1) (some 2) = (25000000 : ℝ) := by
  have hs : searchED "25M0F7W".data = some (25, 'M', 0) := by decide
  have hp : parse_emission_designator_bw_hz "25M0F7W" = some 25000000 := by
    simp only [parse_emission_designator_bw_hz, hs, unitScale, if_neg (by decide : ¬"25M0F7W" = ""),
      reduceIte, Option.some.injEq]
    rw [if_neg (by decide : ¬('M' = 'H')), if_neg (by decide : ¬('M' = 'K'))]
    norm_num
  refine ⟨hp, by norm_num, ?_⟩
  have h := (C6_fs_bw_precedence ⟨⟨5, 20e6, 30, 1, 0⟩, ⟨36⟩, ⟨[], []⟩⟩
    (some "25M0F7W") (some 1) (some 2)).1 "25M0F7W" 25000000 rfl hp (by norm_num)
  rw [h]
  norm_num

lemma allowed_with_spec_le_cap (n inr pl : ℝ) (spec : SpecParameters)
    (off : Option ℤ) (lp : Option ℝ) :
    allowed_eirp_dbm_with_spec n inr pl spec off none lp ≤ spec.wifi_limits.max_eirp_dbm := by
  unfold allowed_eirp_dbm_with_spec allowed_eirp_dbm_for_path
  exact min_le_right _ _

lemma hypoRow_cap_bound (spec : SpecParameters) (distance_m fs_center_mhz inr_limit_db : ℝ)
    (environment : Option EnvTag) (ofb : Option ℝ) (edg : Option String)
    (dc : Option DeviceConstraints) (indoor : Bool) (pen : Option ℝ) (margin : ℝ)
    (bw center : ℝ) :
    (hypoRow spec distance_m fs_center_mhz inr_limit_db environment ofb edg dc indoor pen
      margin bw center).allowed_eirp_dbm ≤
      spec.wifi_limits.max_eirp_dbm +
        ((hypoRow spec distance_m fs_center_mhz inr_limit_db environment ofb edg dc indoor pen
          margin bw center).acir_db_used.getD 0) := by
  unfold hypoRow
  set base := allowed_eirp_dbm_with_spec
    (noise_power_dbm (determine_fs_noise_bw_hz spec edg ofb none) spec.incumbent.noise_figure_db)
    (inr_limit_db - margin)
    (select_pathloss_db distance_m (center * 1e6) none 5000 environment indoor pen)
    spec none none none with hbase
  have hb : base ≤ spec.wifi_limits.max_eirp_dbm := by
    rw [hbase]
    exact allowed_with_spec_le_cap _ _ _ _ _ _
  by_cases hov : 0 < min (center + bw / 2)
      (fs_center_mhz + determine_fs_noise_bw_hz spec edg ofb none / 1e6 / 2) -
      max (center - bw / 2)
      (fs_center_mhz - determine_fs_noise_bw_hz spec edg ofb none / 1e6 / 2)
  · simp only [hov, if_true, Option.getD_none]
    simpa using hb
  · simp only [hov, if_false, Option.getD_some]
    exact add_le_add_right hb _

/-- C1 (amended): the single-path allocator never exceeds a supplied
regulatory cap, and every row of the hypothetical-FS grant-table builder is
bounded by the cap plus the ACIR relief recorded in the row (`0` for
co-channel rows); adjacent rows may exceed the bare cap. -/
theorem C1_amended_cap_bound :
    (∀ n inr pl g lr lp cap : ℝ, ∀ acirv : Option ℝ,
      allowed_eirp_dbm_for_path n inr pl g lr lp acirv (some cap) ≤ cap) ∧
    (∀ (spec : SpecParameters) (distance_m lower_mhz upper_mhz fs_center_mhz inr_limit_db : ℝ)
      (bandwidths : List ℝ) (environment : Option EnvTag) (ofb : Option ℝ)
      (edg : Option String) (ofg : Option ℝ) (dc : Option DeviceConstraints) (indoor : Bool)
      (pen : Option ℝ) (margin : ℝ) (row : GrantRow),
      row ∈ build_grant_table_for_hypothetical_fs spec distance_m lower_mhz upper_mhz
        fs_center_mhz bandwidths inr_limit_db environment ofb edg ofg dc indoor pen margin →
      row.allowed_eirp_dbm ≤ spec.wifi_limits.max_eirp_dbm + row.acir_db_used.getD 0) := by
  constructor
  · intro n inr pl g lr lp cap acirv
    unfold allowed_eirp_dbm_for_path
    exact min_le_right _ _
  · intro spec distance_m lower_mhz upper_mhz fs_center_mhz inr_limit_db bandwidths
      environment ofb edg ofg dc indoor pen margin row hrow
    unfold build_grant_table_for_hypothetical_fs at hrow
    rw [List.mem_flatMap] at hrow
    obtain ⟨bw, _, hrow⟩ := hrow
    rw [List.mem_map] at hrow
    obtain ⟨center, _, hrow⟩ := hrow
    subst hrow
    exact hypoRow_cap_bound spec distance_m fs_center_mhz inr_limit_db environment ofb edg dc
      indoor pen margin bw center

lemma mem_of_mapM_ok {α β : Type} (f : α → Except String β) :
    ∀ (l : List α) (out : List β), l.mapM f = Except.ok out →
      ∀ b ∈ out, ∃ a ∈ l, f a = Except.ok b := by
  intro l
  induction l with
  | nil =>
      intro out h b hb
      simp only [List.mapM_nil, pure, Except.pure, Except.ok.injEq] at h
      subst h
      simp at hb
  | cons a t ih =>
      intro out h b hb
      rw [List.mapM_cons] at h
      cases hfa : f a with
      | error e =>
          rw [hfa] at h
          simp only [bind, Except.bind] at h
          exact Except.noConfusion h
      | ok x =>
          rw [hfa] at h
          cases hmt : t.mapM f with
          | error e =>
              rw [hmt] at h
              simp only [bind, Except.bind] at h
              exact Except.noConfusion h
          | ok xs =>
              rw [hmt] at h
              simp only [bind, Except.bind, pure, Except.pure, Except.ok.injEq] at h
              subst h
              rcases List.mem_cons.mp hb with hbx | hbxs
              · exact ⟨a, List.mem_cons_self a t, by rw [hfa, hbx]⟩
              · obtain ⟨a', ha', hfa'⟩ := ih xs hmt b hbxs
                exact ⟨a', List.mem_cons_of_mem a ha', hfa'⟩

lemma hypoRow_psd (spec : SpecParameters) (distance_m fs_center_mhz inr_limit_db : ℝ)
    (environment : Option EnvTag) (ofb : Option ℝ) (edg : Option String)
    (dc : Option DeviceConstraints) (indoor : Bool) (pen : Option ℝ) (margin : ℝ)
    (bw center : ℝ) :
    (hypoRow spec distance_m fs_center_mhz inr_limit_db environment ofb edg dc indoor pen
        margin bw center).allowed_psd_dbm_per_mhz =
      (hypoRow spec distance_m fs_center_mhz inr_limit_db environment ofb edg dc indoor pen
        margin bw center).allowed_eirp_dbm - 10 * log10 bw := by
  unfold hypoRow psd_dbm_per_mhz_from_eirp
  dsimp only

lemma hypoRow_bandwidth (spec : SpecParameters) (distance_m fs_center_mhz inr_limit_db : ℝ)
    (environment : Option EnvTag) (ofb : Option ℝ) (edg : Option String)
    (dc : Option DeviceConstraints) (indoor : Bool) (pen : Option ℝ) (margin : ℝ)
    (bw center : ℝ) :
    (hypoRow spec distance_m fs_center_mhz inr_limit_db environment ofb edg dc indoor pen
        margin bw center).bandwidth_mhz = bw := by
  unfold hypoRow
  dsimp only

lemma incRow_ok_psd (spec : SpecParameters) (incParams : List ProtSite) (dist : Option ℝ)
    (ap_lat ap_lon : Option ℝ) (inr_limit_db : ℝ) (environment : Option EnvTag)
    (path_model : String) (dc : Option DeviceConstraints) (indoor : Bool) (pen : Option ℝ)
    (margin : ℝ) (bw center : ℝ) (row : GrantRow)
    (h : incRow spec incParams dist ap_lat ap_lon inr_limit_db environment path_model dc indoor
      pen margin bw center = Except.ok row) :
    row.allowed_psd_dbm_per_mhz = row.allowed_eirp_dbm - 10 * log10 bw ∧
      row.bandwidth_mhz = bw := by
  unfold incRow at h
  dsimp only at h
  rcases hst : (siteFold spec inr_limit_db margin environment path_model indoor pen dist ap_lat
    ap_lon bw center (center * 1e6) incParams (spec.wifi_limits.max_eirp_dbm, none, none)).2.2
    with _ | lim
  · rw [hst] at h
    simp at h
  · rw [hst] at h
    simp only [Except.ok.injEq] at h
    subst h
    exact ⟨by unfold psd_dbm_per_mhz_from_eirp; dsimp only, rfl⟩

/-- C3: PSD/EIRP identity.  Every grant row emitted by either grant-table
builder satisfies `PSD = EIRP − 10·log10(bw)` exactly (in the real-number
model), for rows with positive bandwidth. -/
theorem C3_psd_identity :
    ∀ (spec : SpecParameters) (distance_m lower_mhz upper_mhz fs_center_mhz inr_limit_db : ℝ)
      (bandwidths : List ℝ) (environment : Option EnvTag) (ofb : Option ℝ)
      (edg : Option String) (ofg : Option ℝ) (dc : Option DeviceConstraints) (indoor : Bool)
      (pen : Option ℝ) (margin : ℝ) (incumbents : List IncRecord) (dist2 : Option ℝ)
      (ap_lat ap_lon : Option ℝ) (path_model : String) (row : GrantRow),
      (row ∈ build_grant_table_for_hypothetical_fs spec distance_m lower_mhz upper_mhz
          fs_center_mhz bandwidths inr_limit_db environment ofb edg ofg dc indoor pen margin ∨
        row ∈ rowsOf (build_grant_table_with_incumbents spec incumbents dist2 ap_lat ap_lon
          lower_mhz upper_mhz bandwidths inr_limit_db environment path_model dc indoor pen
          margin)) →
      0 < row.bandwidth_mhz →
      row.allowed_psd_dbm_per_mhz = row.allowed_eirp_dbm - 10 * log10 row.bandwidth_mhz := by
  intro spec distance_m lower_mhz upper_mhz fs_center_mhz inr_limit_db bandwidths environment
    ofb edg ofg dc indoor pen margin incumbents dist2 ap_lat ap_lon path_model row hmem hbw
  rcases hmem with hmem | hmem
  · unfold build_grant_table_for_hypothetical_fs at hmem
    rw [List.mem_flatMap] at hmem
    obtain ⟨bw, _, hmem⟩ := hmem
    rw [List.mem_map] at hmem
    obtain ⟨center, _, hrow⟩ := hmem
    subst hrow
    rw [hypoRow_bandwidth]
    exact hypoRow_psd spec distance_m fs_center_mhz inr_limit_db environment ofb edg dc indoor
      pen margin bw center
  · unfold rowsOf at hmem
    rcases hb : build_grant_table_with_incumbents spec incumbents dist2 ap_lat ap_lon lower_mhz
      upper_mhz bandwidths inr_limit_db environment path_model dc indoor pen margin with e | l
    · rw [hb] at hmem
      simp at hmem
    · rw [hb] at hmem
      dsimp only at hmem
      unfold build_grant_table_with_incumbents at hb
      obtain ⟨p, _, hp⟩ := mem_of_mapM_ok _ _ _ hb row hmem
      obtain ⟨hpsd, hbw'⟩ := incRow_ok_psd _ _ _ _ _ _ _ _ _ _ _ _ _ _ _ hp
      rw [hbw']
      exact hpsd

/-- A concrete parameter set used to evaluate the builders on explicit
inputs: NF 5 dB, FS bandwidth 10 MHz, gain 30 dBi, losses 1 dB, cap 36 dBm,
empty device-specific ACIR tables (so the built-in defaults apply). -/
def specSample : SpecParameters := ⟨⟨5, 1e7, 30, 1, 0⟩, ⟨36⟩, ⟨[], []⟩⟩

/-- The single row of the sample hypothetical-FS run: AP at 10⁹ km from an FS
at 6175 MHz, band 5925–5945 MHz, one 20 MHz channel centred at 5935 MHz. -/
def sampleHypoRow : GrantRow :=
  hypoRow specSample 1e12 6175 (-6) none none none none false none 0 20 5935

lemma enum_sample : enumerate_centers_mhz 5925 5945 20 = [5935] := by
  unfold enumerate_centers_mhz
  rw [if_neg (by norm_num : ¬(20 : ℝ) ≤ 0)]
  have h1 : ⌊((5925 : ℝ) - 5955 + 20 - 1e-9) / 20⌋ = -1 := by
    rw [Int.floor_eq_iff]
    norm_num
  dsimp only
  rw [h1]
  have h2 : ⌊((5945 : ℝ) - 20 / 2 - (5955 + (-1 : ℤ) * 20)) / 20⌋ = 0 := by
    rw [Int.floor_eq_iff]
    norm_num
  rw [h2]
  norm_num [List.filterMap]

lemma sample_build_eq :
    build_grant_table_for_hypothetical_fs specSample 1e12 5925 5945 6175 [20] (-6)
      none none none none none false none 0 = [sampleHypoRow] := by
  unfold build_grant_table_for_hypothetical_fs
  rw [show ([20] : List ℝ).flatMap (fun bw =>
      (enumerate_centers_mhz 5925 5945 bw).map
        (hypoRow specSample 1e12 6175 (-6) none none none none false none 0 bw)) =
      (enumerate_centers_mhz 5925 5945 20).map
        (hypoRow specSample 1e12 6175 (-6) none none none none false none 0 20) by
    simp [List.flatMap]]
  rw [enum_sample]
  rfl

lemma det_none (spec : SpecParameters) :
    determine_fs_noise_bw_hz spec none none none = spec.incumbent.bandwidth_hz := by
  simp [determine_fs_noise_bw_hz, determine_fs_noise_bw_tail]

lemma log10_pow_nat (n : ℕ) : log10 ((10 : ℝ) ^ n) = n := by
  unfold log10
  rw [Real.logb_pow]
  simp [Real.logb_self_eq_one]

lemma log10_1e7 : log10 (1e7 : ℝ) = 7 := by
  rw [show (1e7 : ℝ) = 10 ^ (7 : ℕ) by norm_num]
  rw [log10_pow_nat]
  norm_num

lemma noise_sample : noise_power_dbm (1e7 : ℝ) 5 = -99 := by
  unfold noise_power_dbm
  rw [log10_1e7]
  norm_num

lemma log10_ge_of_ge {x : ℝ} (n : ℕ) (h : (10 : ℝ) ^ n ≤ x) : (n : ℝ) ≤ log10 x := by
  have hx : (0 : ℝ) < x := lt_of_lt_of_le (by positivity) h
  unfold log10
  rw [Real.le_logb_iff_rpow_le (by norm_num) hx]
  rw [Real.rpow_natCast]
  exact h

lemma log10_nonneg {x : ℝ} (h : 1 ≤ x) : 0 ≤ log10 x := Real.logb_nonneg (by norm_num) h

lemma two_lt_rpow_ofNat_two_fifths : (2 : ℝ) < (10 : ℝ) ^ ((2 : ℝ) / 5) := by
  have key : ((10 : ℝ) ^ ((2 : ℝ) / 5)) ^ (5 : ℕ) = 100 := by
    rw [← Real.rpow_natCast ((10 : ℝ) ^ ((2 : ℝ) / 5)) 5, ← Real.rpow_mul (by norm_num)]
    rw [show ((2 : ℝ) / 5 * (5 : ℕ)) = ((2 : ℕ) : ℝ) by push_cast; ring, Real.rpow_natCast]
    norm_num
  by_contra hle
  push_neg at hle
  have h5 : ((10 : ℝ) ^ ((2 : ℝ) / 5)) ^ (5 : ℕ) ≤ 2 ^ (5 : ℕ) :=
    pow_le_pow_left₀ (by positivity) hle 5
  rw [key] at h5
  norm_num at h5

lemma acir_db_pos {a b : ℝ} (ha : 4 ≤ a) (hb : 4 ≤ b) : 0 < acir_db a b := by
  unfold acir_db pow10 log10
  have hbound : ∀ c : ℝ, 4 ≤ c → (10 : ℝ) ^ (-c / 10) < 1 / 2 := by
    intro c hc
    have h1 : (10 : ℝ) ^ (-c / 10) ≤ (10 : ℝ) ^ (-(2 : ℝ) / 5) := by
      rw [Real.rpow_le_rpow_left_iff (by norm_num : (1 : ℝ) < 10)]
      linarith
    have h2 : (10 : ℝ) ^ (-(2 : ℝ) / 5) < 1 / 2 := by
      rw [show (-(2 : ℝ) / 5) = -((2 : ℝ) / 5) by ring, Real.rpow_neg (by norm_num)]
      rw [inv_lt_comm₀ (by positivity) (by norm_num)]
      have := two_lt_rpow_ofNat_two_fifths
      linarith
    linarith
  have hs1 : (0 : ℝ) < (10 : ℝ) ^ (-a / 10) + (10 : ℝ) ^ (-b / 10) := by positivity
  have hs2 : (10 : ℝ) ^ (-a / 10) + (10 : ℝ) ^ (-b / 10) < 1 := by
    have := hbound a ha
    have := hbound b hb
    linarith
  have hinv : 1 < 1 / ((10 : ℝ) ^ (-a / 10) + (10 : ℝ) ^ (-b / 10)) := by
    rw [lt_div_iff₀ hs1]
    linarith
  have := Real.logb_pos (by norm_num : (1 : ℝ) < 10) hinv
  linarith

lemma interp240_tx :
    interpolate_mask_db (240 : ℝ)
      (dictPoints (default_tx_mask_db_by_offset_mhz : List (ℤ × ℝ))) = 50 := by
  norm_num [interpolate_mask_db, sortedPoints, sortPairs, dictPoints,
    default_tx_mask_db_by_offset_mhz, List.insertionSort, List.orderedInsert, pairLe,
    dedupNear, interpAux]

lemma interp240_rx :
    interpolate_mask_db (240 : ℝ)
      (dictPoints (default_rx_acs_db_by_offset_mhz : List (ℤ × ℝ))) = 48 := by
  norm_num [interpolate_mask_db, sortedPoints, sortPairs, dictPoints,
    default_rx_acs_db_by_offset_mhz, List.insertionSort, List.orderedInsert, pairLe,
    dedupNear, interpAux]

lemma plSample_lb :
    (170 : ℝ) ≤ select_pathloss_db 1e12 (5935 * 1e6) none 5000 none false none := by
  have hπ := Real.pi_gt_three
  have harg : (10 : ℝ) ^ (14 : ℕ) ≤ 4 * π * 1e12 * (5935 * 1e6) / cLight := by
    unfold cLight
    rw [le_div_iff₀ (by norm_num)]
    nlinarith [hπ]
  have hf : (280 : ℝ) ≤ fspl_db 1e12 (5935 * 1e6) := by
    unfold fspl_db
    have h := log10_ge_of_ge 14 harg
    push_cast at h
    linarith
  have hexcess : (0 : ℝ) ≤ log10 (max (1e12 : ℝ) 1) :=
    log10_nonneg (le_max_right _ _)
  unfold select_pathloss_db
  rw [if_neg (by simp : ¬((none : Option Selector) = some Selector.fspl)),
    if_neg (show ¬((none : Option Selector) = some Selector.winner2 ∨
        ((none : Option Selector) = none ∧ (1e12 : ℝ) < 5000)) by
      rintro (h | ⟨-, h⟩)
      · exact Option.noConfusion h
      · norm_num at h)]
  unfold itm_pathloss_db building_penetration_loss_db
  dsimp only
  norm_num at hf hexcess ⊢
  linarith

lemma sampleHypoRow_eirp_eq : sampleHypoRow.allowed_eirp_dbm = 36 + acir_db 50 48 := by
  unfold sampleHypoRow hypoRow
  dsimp only
  rw [det_none]
  simp only [specSample]
  split_ifs with h
  · exfalso
    norm_num at h
  · have habs : |(5935 : ℝ) - 6175| = 240 := by norm_num
    unfold acir_db_from_masks
    simp only [ensure_defaults, dictUpdate, List.foldl]
    rw [habs, interp240_tx, interp240_rx]
    have haws : allowed_eirp_dbm_with_spec (noise_power_dbm (1e7 : ℝ) 5) (-6 - 0)
        (select_pathloss_db 1e12 (5935 * 1e6) none 5000 none false none)
        ⟨⟨5, 1e7, 30, 1, 0⟩, ⟨36⟩, ⟨[], []⟩⟩ none none none = 36 := by
      unfold allowed_eirp_dbm_with_spec allowed_eirp_dbm_for_path i_threshold_dbm
      dsimp only
      simp only [Option.getD_none]
      rw [noise_sample]
      rw [min_eq_right (by have := plSample_lb; linarith)]
    rw [haws]

/-- C1 counterexample: with the sample parameter set (regulatory cap 36 dBm)
and an AP 10⁹ km from a hypothetical FS at 6175 MHz, the only grant row (the
adjacent 20 MHz channel at 5935 MHz) carries an allowed EIRP strictly above
the regulatory cap, because the builder adds the ACIR relief after the cap was
already applied. -/
theorem C1_counterexample_adjacent_exceeds_cap :
    ∃ row ∈ build_grant_table_for_hypothetical_fs specSample 1e12 5925 5945 6175 [20] (-6)
        none none none none none false none 0,
      specSample.wifi_limits.max_eirp_dbm < row.allowed_eirp_dbm := by
  refine ⟨sampleHypoRow, by rw [sample_build_eq]; exact List.mem_singleton_self _, ?_⟩
  rw [sampleHypoRow_eirp_eq]
  have hpos := acir_db_pos (a := 50) (b := 48) (by norm_num) (by norm_num)
  have hcap : specSample.wifi_limits.max_eirp_dbm = 36 := rfl
  rw [hcap]
  linarith

/-- Witness for the amended C1 at concrete inputs: the allocator bound at the
origin, and the cap-plus-ACIR bound on the sample adjacent row. -/
theorem C1_amended_cap_bound_witness :
    allowed_eirp_dbm_for_path 0 0 0 0 0 0 none (some 36) ≤ 36 ∧
    sampleHypoRow ∈ build_grant_table_for_hypothetical_fs specSample 1e12 5925 5945 6175 [20]
      (-6) none none none none none false none 0 ∧
    sampleHypoRow.allowed_eirp_dbm ≤
      specSample.wifi_limits.max_eirp_dbm + sampleHypoRow.acir_db_used.getD 0 := by
  have hmem : sampleHypoRow ∈ build_grant_table_for_hypothetical_fs specSample 1e12 5925 5945
      6175 [20] (-6) none none none none none false none 0 := by
    rw [sample_build_eq]
    exact List.mem_singleton_self _
  exact ⟨C1_amended_cap_bound.1 0 0 0 0 0 0 36 none, hmem,
    C1_amended_cap_bound.2 specSample 1e12 5925 5945 6175 (-6) [20] none none none none none
      false none 0 sampleHypoRow hmem⟩

/-- Witness for C3 on the sample adjacent row (bandwidth 20 MHz). -/
theorem C3_psd_identity_witness :
    (sampleHypoRow ∈ build_grant_table_for_hypothetical_fs specSample 1e12 5925 5945 6175 [20]
        (-6) none none none none none false none 0 ∨
      sampleHypoRow ∈ rowsOf (build_grant_table_with_incumbents specSample [] none none none
        5925 5945 [20] (-6) none "auto" none false none 0)) ∧
    0 < sampleHypoRow.bandwidth_mhz ∧
    sampleHypoRow.allowed_psd_dbm_per_mhz =
      sampleHypoRow.allowed_eirp_dbm - 10 * log10 sampleHypoRow.bandwidth_mhz := by
  have hmem : sampleHypoRow ∈ build_grant_table_for_hypothetical_fs specSample 1e12 5925 5945
      6175 [20] (-6) none none none none none false none 0 := by
    rw [sample_build_eq]
    exact List.mem_singleton_self _
  have hbw : 0 < sampleHypoRow.bandwidth_mhz := by
    unfold sampleHypoRow
    rw [hypoRow_bandwidth]
    norm_num
  exact ⟨Or.inl hmem, hbw,
    C3_psd_identity specSample 1e12 5925 5945 6175 (-6) [20] none none none none none false
      none 0 [] none none none "auto" sampleHypoRow (Or.inl hmem) hbw⟩

lemma incRow_empty_error (spec : SpecParameters) (dist : Option ℝ) (ap_lat ap_lon : Option ℝ)
    (inr : ℝ) (env : Option EnvTag) (pm : String) (dc : Option DeviceConstraints)
    (indoor : Bool) (pen : Option ℝ) (margin : ℝ) (bw center : ℝ) :
    incRow spec [] dist ap_lat ap_lon inr env pm dc indoor pen margin bw center =
      Except.error "UnboundLocalError: local variable referenced before assignment" := by
  unfold incRow siteFold
  dsimp only

lemma mapM_const_error {α β : Type} (f : α → Except String β) (msg : String)
    (hf : ∀ a, f a = .error msg) :
    ∀ l : List α, l ≠ [] → l.mapM f = .error msg := by
  intro l hl
  cases l with
  | nil => exact absurd rfl hl
  | cons a t =>
      rw [List.mapM_cons, hf a]
      rfl

/-- C10: calling `build_grant_table_with_incumbents` with an empty incumbents
list and a band/bandwidth combination that yields at least one channel center
raises (the `limiting` local is only assigned inside the per-site loop, which
never runs), rather than returning a grant table with the regulatory cap. -/
theorem C10_empty_incumbents_error :
    ∀ (spec : SpecParameters) (distance_m : Option ℝ) (ap_lat ap_lon : Option ℝ)
      (lower upper : ℝ) (bandwidths : List ℝ) (inr : ℝ) (env : Option EnvTag)
      (path_model : String) (dc : Option DeviceConstraints) (indoor : Bool)
      (pen : Option ℝ) (margin : ℝ),
      (∃ bw ∈ bandwidths, enumerate_centers_mhz lower upper bw ≠ []) →
      build_grant_table_with_incumbents spec [] distance_m ap_lat ap_lon lower upper
          bandwidths inr env path_model dc indoor pen margin =
        Except.error "UnboundLocalError: local variable referenced before assignment" := by
  intro spec distance_m ap_lat ap_lon lower upper bandwidths inr env path_model dc indoor pen
    margin hne
  obtain ⟨bw, hbw, hcent⟩ := hne
  obtain ⟨c, hc⟩ := List.exists_mem_of_ne_nil _ hcent
  unfold build_grant_table_with_incumbents
  dsimp only
  have hpair : (bw, c) ∈ bandwidths.flatMap (fun bw =>
      (enumerate_centers_mhz lower upper bw).map (fun center => (bw, center))) := by
    rw [List.mem_flatMap]
    exact ⟨bw, hbw, List.mem_map.mpr ⟨c, hc, rfl⟩⟩
  refine mapM_const_error _ _ ?_ _ (List.ne_nil_of_mem hpair)
  intro p
  exact incRow_empty_error spec distance_m ap_lat ap_lon inr env path_model dc indoor pen
    margin p.1 p.2

/-- Witness for C10: the 5925–5945 MHz band with a 20 MHz bandwidth yields the
center 5935 MHz, and the builder errors on an empty incumbent list. -/
theorem C10_empty_incumbents_error_witness :
    (∃ bw ∈ ([20] : List ℝ), enumerate_centers_mhz 5925 5945 bw ≠ []) ∧
    build_grant_table_with_incumbents specSample [] (some 1000) none none 5925 5945 [20] (-6)
        none "auto" none false none 0 =
      Except.error "UnboundLocalError: local variable referenced before assignment" := by
  have hne : ∃ bw ∈ ([20] : List ℝ), enumerate_centers_mhz 5925 5945 bw ≠ [] :=
    ⟨20, List.mem_singleton_self _, by rw [enum_sample]; simp⟩
  exact ⟨hne, C10_empty_incumbents_error specSample (some 1000) none none 5925 5945 [20] (-6)
    none "auto" none false none 0 hne⟩

/-- Parameter set for the incumbent-builder sample: NF 5 dB, FS bandwidth
10 MHz, gain 94 dBi, no losses, cap 36 dBm. -/
def specSample2 : SpecParameters := ⟨⟨5, 1e7, 94, 0, 0⟩, ⟨36⟩, ⟨[], []⟩⟩

/-- The distance at which the FSPL argument is exactly `10^10`, making the
sample path loss exactly 200 dB. -/
def dStar : ℝ := cLight * 1e10 / (4 * π * (5935 * 1e6))

/-- A co-channel incumbent at 5935 MHz / 20 MHz with no optional fields. -/
def incSample : IncRecord :=
  ⟨5935, 20, some "FS1", some 41, some 29, none, none, none, none, none, none, none⟩

/-- The protection site that `incSample` expands to under `specSample2`. -/
def siteSample : ProtSite := ⟨5935, 20, 94, 41, 29, 0, "", none, none, none, "FS1"⟩

lemma expand_incSample : expandSites specSample2 incSample = [siteSample] := by
  have hpol : polTag "" = "" := by decide
  unfold expandSites incSample specSample2 siteSample
  simp only [Option.getD_none, Option.getD_some]
  rw [hpol]

lemma fspl_dStar : fspl_db dStar (5935 * 1e6) = 200 := by
  have hπ : π ≠ 0 := Real.pi_ne_zero
  have hc : cLight ≠ 0 := ne_of_gt cLight_pos
  have harg : 4 * π * dStar * (5935 * 1e6) / cLight = 1e10 := by
    unfold dStar
    field_simp
    ring
  unfold fspl_db
  rw [harg, show (1e10 : ℝ) = 10 ^ (10 : ℕ) by norm_num, log10_pow_nat]
  norm_num

lemma c2_siteEval :
    siteEval specSample2 (-6) 0 none "fspl" false none (some dStar) none none 20 5935
      (5935 * 1e6) siteSample = (1, 200, "co", none) := by
  have hsel : select_pathloss_db dStar (5935 * 1e6) (some Selector.fspl) 5000 none false none
      = 200 := by
    unfold select_pathloss_db building_penetration_loss_db
    rw [if_pos rfl]
    dsimp only
    rw [fspl_dStar]
    norm_num
  unfold siteEval
  simp only [siteSample, reduceIte]
  rw [if_pos (show (0 : ℝ) < min (5935 + 20 / 2) (5935 + 20 / 2) -
    max (5935 - 20 / 2) (5935 - 20 / 2) by norm_num)]
  rw [hsel]
  rw [if_neg (show ¬((("" : String) = "H") ∨ (("" : String) = "V")) by decide)]
  rw [show specSample2.incumbent.bandwidth_hz = 1e7 from rfl,
    show specSample2.incumbent.noise_figure_db = 5 from rfl]
  have haws : allowed_eirp_dbm_with_spec (noise_power_dbm (1e7 : ℝ) 5)
      (-6 - 0) 200 specSample2 none none (some 0) = 1 := by
    unfold allowed_eirp_dbm_with_spec allowed_eirp_dbm_for_path i_threshold_dbm specSample2
    dsimp only
    simp only [Option.getD_some, Option.getD_none]
    rw [noise_sample]
    rw [min_eq_left (by norm_num)]
    norm_num
  rw [haws]

lemma c2_incRow :
    incRow specSample2 [siteSample] (some dStar) none none (-6) none "fspl" none false none 0
        20 5935 =
      Except.ok
        { channel_number := channel_number_from_center_mhz 5935
          center_mhz := 5935
          bandwidth_mhz := 20
          offset_mhz := 0
          path_loss_db := 200
          noise_dbm := noise_power_dbm specSample2.incumbent.bandwidth_hz
            specSample2.incumbent.noise_figure_db
          allowed_eirp_dbm := 1
          allowed_psd_dbm_per_mhz := psd_dbm_per_mhz_from_eirp 1 20
          decision := "grant"
          limiting_incumbent := some "FS1"
          limiting_mode := some "co"
          acir_db_used := none } := by
  have hfold : siteFold specSample2 (-6) 0 none "fspl" false none (some dStar) none none 20
      5935 (5935 * 1e6) [siteSample] (specSample2.wifi_limits.max_eirp_dbm, none, none) =
      (1, some 200, some ("FS1", "co", none)) := by
    unfold siteFold
    rw [c2_siteEval]
    dsimp only [siteSample, specSample2]
    rw [if_pos (show (1 : ℝ) < 36 by norm_num)]
    rfl
  unfold incRow
  dsimp only
  rw [hfold]
  dsimp only
  rw [if_pos (show (0 : ℝ) ≤ 1 by norm_num)]

lemma log10_twenty_gt : (11 / 10 : ℝ) < log10 20 := by
  unfold log10
  rw [Real.lt_logb_iff_rpow_lt (by norm_num) (by norm_num)]
  have key : ((10 : ℝ) ^ ((11 : ℝ) / 10)) ^ (10 : ℕ) = 10 ^ (11 : ℕ) := by
    rw [← Real.rpow_natCast ((10 : ℝ) ^ ((11 : ℝ) / 10)) 10, ← Real.rpow_mul (by norm_num)]
    rw [show ((11 : ℝ) / 10 * (10 : ℕ)) = ((11 : ℕ) : ℝ) by push_cast; ring,
      Real.rpow_natCast]
  by_contra hle
  push_neg at hle
  have h10 : (20 : ℝ) ^ (10 : ℕ) ≤ ((10 : ℝ) ^ ((11 : ℝ) / 10)) ^ (10 : ℕ) :=
    pow_le_pow_left₀ (by norm_num) hle 10
  rw [key] at h10
  norm_num at h10

lemma c2_psd_lt : psd_dbm_per_mhz_from_eirp 1 20 < -10 := by
  unfold psd_dbm_per_mhz_from_eirp
  have := log10_twenty_gt
  linarith

/-- The single grant row of the sample incumbent run. -/
def c2Row : GrantRow :=
  { channel_number := channel_number_from_center_mhz 5935
    center_mhz := 5935
    bandwidth_mhz := 20
    offset_mhz := 0
    path_loss_db := 200
    noise_dbm := noise_power_dbm specSample2.incumbent.bandwidth_hz
      specSample2.incumbent.noise_figure_db
    allowed_eirp_dbm := 1
    allowed_psd_dbm_per_mhz := psd_dbm_per_mhz_from_eirp 1 20
    decision := "grant"
    limiting_incumbent := some "FS1"
    limiting_mode := some "co"
    acir_db_used := none }

lemma c2_build :
    build_grant_table_with_incumbents specSample2 [incSample] (some dStar) none none 5925 5945
      [20] (-6) none "fspl" none false none 0 = Except.ok [c2Row] := by
  unfold c2Row
  unfold build_grant_table_with_incumbents
  dsimp only
  rw [show [incSample].flatMap (expandSites specSample2) = [siteSample] by
    simp [List.flatMap, expand_incSample]]
  rw [show ([20] : List ℝ).flatMap (fun bw =>
      (enumerate_centers_mhz 5925 5945 bw).map (fun center => (bw, center))) = [(20, 5935)] by
    simp [List.flatMap, enum_sample]]
  rw [List.mapM_cons, c2_incRow]
  rfl

/-- C2 counterexample: with no `DeviceConstraints` supplied, the incumbent
grant-table builder marks a row "grant" although its allowed PSD
(1 − 10·log10 20 ≈ −12.01 dBm/MHz) is below the stated −10 dBm/MHz default
floor — the PSD condition is simply not checked in that branch. -/
theorem C2_counterexample_default_psd_not_checked :
    ∃ rows, build_grant_table_with_incumbents specSample2 [incSample] (some dStar) none none
        5925 5945 [20] (-6) none "fspl" none false none 0 = Except.ok rows ∧
      ∃ row ∈ rows, row.decision = "grant" ∧ row.allowed_psd_dbm_per_mhz < -10 := by
  refine ⟨_, c2_build, ?_⟩
  refine ⟨_, List.mem_singleton_self _, rfl, ?_⟩
  exact c2_psd_lt

/-- The decision expression shared by both grant-table builders: device
constraints when supplied, else the bare `EIRP ≥ 0` test. -/
noncomputable def decisionOf (dc : Option DeviceConstraints) (e p : ℝ) : String :=
  match dc with
  | some c => if apply_constraints_to_decision e p c then "grant" else "deny"
  | none => if 0 ≤ e then "grant" else "deny"

lemma hypoRow_decision_eq (spec : SpecParameters) (distance_m fs_center_mhz inr_limit_db : ℝ)
    (environment : Option EnvTag) (ofb : Option ℝ) (edg : Option String)
    (dc : Option DeviceConstraints) (indoor : Bool) (pen : Option ℝ) (margin : ℝ)
    (bw center : ℝ) :
    (hypoRow spec distance_m fs_center_mhz inr_limit_db environment ofb edg dc indoor pen
        margin bw center).decision =
      decisionOf dc
        (hypoRow spec distance_m fs_center_mhz inr_limit_db environment ofb edg dc indoor pen
          margin bw center).allowed_eirp_dbm
        (hypoRow spec distance_m fs_center_mhz inr_limit_db environment ofb edg dc indoor pen
          margin bw center).allowed_psd_dbm_per_mhz := by
  unfold hypoRow decisionOf
  dsimp only

lemma incRow_ok_decision (spec : SpecParameters) (incParams : List ProtSite) (dist : Option ℝ)
    (ap_lat ap_lon : Option ℝ) (inr_limit_db : ℝ) (environment : Option EnvTag)
    (path_model : String) (dc : Option DeviceConstraints) (indoor : Bool) (pen : Option ℝ)
    (margin : ℝ) (bw center : ℝ) (row : GrantRow)
    (h : incRow spec incParams dist ap_lat ap_lon inr_limit_db environment path_model dc indoor
      pen margin bw center = Except.ok row) :
    row.decision = decisionOf dc row.allowed_eirp_dbm row.allowed_psd_dbm_per_mhz := by
  unfold incRow at h
  dsimp only at h
  rcases hst : (siteFold spec inr_limit_db margin environment path_model indoor pen dist ap_lat
    ap_lon bw center (center * 1e6) incParams (spec.wifi_limits.max_eirp_dbm, none, none)).2.2
    with _ | lim
  · rw [hst] at h
    simp at h
  · rw [hst] at h
    simp only [Except.ok.injEq] at h
    subst h
    cases dc with
    | none => rfl
    | some c => rfl

lemma decision_grant_iff (dc : Option DeviceConstraints) (e p : ℝ) :
    (∀ c, dc = some c →
      (decisionOf dc e p = "grant" ↔ c.min_eirp_dbm ≤ e ∧ c.min_psd_dbm_per_mhz ≤ p)) ∧
    (dc = none → (decisionOf dc e p = "grant" ↔ 0 ≤ e)) := by
  have happly : ∀ c : DeviceConstraints, (apply_constraints_to_decision e p c = true ↔
      (c.min_eirp_dbm ≤ e ∧ c.min_psd_dbm_per_mhz ≤ p)) := by
    intro c
    unfold apply_constraints_to_decision
    split_ifs with h1 h2
    · exact iff_of_false (by simp) (fun hcon => absurd h1 (not_lt.mpr hcon.1))
    · exact iff_of_false (by simp) (fun hcon => absurd h2 (not_lt.mpr hcon.2))
    · exact iff_of_true rfl ⟨not_lt.mp h1, not_lt.mp h2⟩
  constructor
  · intro c hdc
    subst hdc
    unfold decisionOf
    dsimp only
    split_ifs with h1
    · exact iff_of_true rfl ((happly c).mp h1)
    · exact iff_of_false (by decide) (fun hcon => h1 ((happly c).mpr hcon))
  · intro hdc
    subst hdc
    unfold decisionOf
    dsimp only
    split_ifs with h1
    · exact iff_of_true rfl h1
    · exact iff_of_false (by decide) h1

/-- C2 (amended): when a `DeviceConstraints` object is supplied, the decision
of every grant row of either builder is "grant" iff the allowed EIRP meets the
device minimum EIRP and the allowed PSD meets the device minimum PSD; when no
constraints object is supplied, the PSD floor is not checked at all and the
decision is "grant" iff the allowed EIRP is at least 0 dBm. -/
theorem C2_amended_decision_rule :
    ∀ (spec : SpecParameters) (distance_m lower_mhz upper_mhz fs_center_mhz inr_limit_db : ℝ)
      (bandwidths : List ℝ) (environment : Option EnvTag) (ofb : Option ℝ)
      (edg : Option String) (ofg : Option ℝ) (dc : Option DeviceConstraints) (indoor : Bool)
      (pen : Option ℝ) (margin : ℝ) (incumbents : List IncRecord) (dist2 : Option ℝ)
      (ap_lat ap_lon : Option ℝ) (path_model : String) (row : GrantRow),
      (row ∈ build_grant_table_for_hypothetical_fs spec distance_m lower_mhz upper_mhz
          fs_center_mhz bandwidths inr_limit_db environment ofb edg ofg dc indoor pen margin ∨
        row ∈ rowsOf (build_grant_table_with_incumbents spec incumbents dist2 ap_lat ap_lon
          lower_mhz upper_mhz bandwidths inr_limit_db environment path_model dc indoor pen
          margin)) →
      (∀ c, dc = some c →
        (row.decision = "grant" ↔
          c.min_eirp_dbm ≤ row.allowed_eirp_dbm ∧
            c.min_psd_dbm_per_mhz ≤ row.allowed_psd_dbm_per_mhz)) ∧
      (dc = none → (row.decision = "grant" ↔ 0 ≤ row.allowed_eirp_dbm)) := by
  intro spec distance_m lower_mhz upper_mhz fs_center_mhz inr_limit_db bandwidths environment
    ofb edg ofg dc indoor pen margin incumbents dist2 ap_lat ap_lon path_model row hmem
  have hdec : row.decision =
      decisionOf dc row.allowed_eirp_dbm row.allowed_psd_dbm_per_mhz := by
    rcases hmem with hmem | hmem
    · unfold build_grant_table_for_hypothetical_fs at hmem
      rw [List.mem_flatMap] at hmem
      obtain ⟨bw, _, hmem⟩ := hmem
      rw [List.mem_map] at hmem
      obtain ⟨center, _, hrow⟩ := hmem
      subst hrow
      exact hypoRow_decision_eq spec distance_m fs_center_mhz inr_limit_db environment ofb edg
        dc indoor pen margin bw center
    · unfold rowsOf at hmem
      rcases hb : build_grant_table_with_incumbents spec incumbents dist2 ap_lat ap_lon
        lower_mhz upper_mhz bandwidths inr_limit_db environment path_model dc indoor pen margin
        with e | l
      · rw [hb] at hmem
        simp at hmem
      · rw [hb] at hmem
        dsimp only at hmem
        unfold build_grant_table_with_incumbents at hb
        obtain ⟨p, _, hp⟩ := mem_of_mapM_ok _ _ _ hb row hmem
        exact incRow_ok_decision _ _ _ _ _ _ _ _ _ _ _ _ _ _ _ hp
  rw [hdec]
  exact decision_grant_iff dc row.allowed_eirp_dbm row.allowed_psd_dbm_per_mhz

/-- Witness for the amended C2 on the sample incumbent run (no constraints
supplied: the 1 dBm row is granted since only the EIRP floor is applied). -/
theorem C2_amended_decision_rule_witness :
    c2Row ∈ rowsOf (build_grant_table_with_incumbents specSample2 [incSample] (some dStar)
      none none 5925 5945 [20] (-6) none "fspl" none false none 0) ∧
    (c2Row.decision = "grant" ↔ 0 ≤ c2Row.allowed_eirp_dbm) := by
  have hmem : c2Row ∈ rowsOf (build_grant_table_with_incumbents specSample2 [incSample]
      (some dStar) none none 5925 5945 [20] (-6) none "fspl" none false none 0) := by
    rw [c2_build]
    exact List.mem_singleton_self _
  exact ⟨hmem,
    (C2_amended_decision_rule specSample2 0 5925 5945 0 (-6) [20] none none none none none
      false none 0 [incSample] (some dStar) none none "fspl" c2Row (Or.inr hmem)).2 rfl⟩

end Theorems

section MaskLemmas

variable {α : Type} [LinearOrderedField α]

lemma pairLe_x {p q : α × α} (h : pairLe p q) : p.1 ≤ q.1 := by
  rcases h with h | ⟨h, _⟩
  · exact le_of_lt h
  · exact le_of_eq h

instance pairLe_trans : IsTrans (α × α) (pairLe (α := α)) := by
  constructor
  intro a b c hab hbc
  rcases hab with hab | ⟨hab, hab2⟩
  · rcases hbc with hbc | ⟨hbc, _⟩
    · exact Or.inl (lt_trans hab hbc)
    · exact Or.inl (hbc ▸ hab)
  · rcases hbc with hbc | ⟨hbc, hbc2⟩
    · exact Or.inl (hab ▸ hbc)
    · exact Or.inr ⟨hab.trans hbc, hab2.trans hbc2⟩

instance pairLe_total : IsTotal (α × α) (pairLe (α := α)) := by
  constructor
  intro a b
  rcases lt_trichotomy a.1 b.1 with h | h | h
  · exact Or.inl (Or.inl h)
  · rcases le_total a.2 b.2 with h2 | h2
    · exact Or.inl (Or.inr ⟨h, h2⟩)
    · exact Or.inr (Or.inr ⟨h.symm, h2⟩)
  · exact Or.inr (Or.inl h)

lemma sortPairs_sorted (l : List (α × α)) : List.Chain' pairLe (sortPairs l) :=
  List.chain'_iff_pairwise.mpr (List.sorted_insertionSort pairLe l)

lemma mem_sortPairs {l : List (α × α)} {p : α × α} : p ∈ sortPairs l ↔ p ∈ l :=
  List.mem_insertionSort pairLe

lemma dedupNear_nil (accRev : List (α × α)) : dedupNear accRev [] = accRev.reverse := by
  cases accRev <;> rfl

lemma dedupNear_nil_cons (q : α × α) (rest : List (α × α)) :
    dedupNear [] (q :: rest) = dedupNear [q] rest := rfl

lemma dedupNear_cons_cons (last : α × α) (tail : List (α × α)) (q : α × α)
    (rest : List (α × α)) :
    dedupNear (last :: tail) (q :: rest) =
      if |last.1 - q.1| < (1e-9 : α) then dedupNear (q :: tail) rest
      else dedupNear (q :: last :: tail) rest := rfl

lemma mem_dedupNear :
    ∀ (l accRev : List (α × α)) (p : α × α),
      p ∈ dedupNear accRev l → p ∈ accRev ∨ p ∈ l := by
  intro l
  induction l with
  | nil =>
      intro accRev p hp
      rw [dedupNear_nil] at hp
      exact Or.inl (List.mem_reverse.mp hp)
  | cons q rest ih =>
      intro accRev p hp
      cases accRev with
      | nil =>
          rw [dedupNear_nil_cons] at hp
          rcases ih [q] p hp with h | h
          · simp only [List.mem_singleton] at h
            exact Or.inr (h ▸ List.mem_cons_self q rest)
          · exact Or.inr (List.mem_cons_of_mem q h)
      | cons last tail =>
          rw [dedupNear_cons_cons] at hp
          by_cases hc : |last.1 - q.1| < (1e-9 : α)
          · rw [if_pos hc] at hp
            rcases ih (q :: tail) p hp with h | h
            · rcases List.mem_cons.mp h with h | h
              · exact Or.inr (h ▸ List.mem_cons_self q rest)
              · exact Or.inl (List.mem_cons_of_mem last h)
            · exact Or.inr (List.mem_cons_of_mem q h)
          · rw [if_neg hc] at hp
            rcases ih (q :: last :: tail) p hp with h | h
            · rcases List.mem_cons.mp h with h | h
              · exact Or.inr (h ▸ List.mem_cons_self q rest)
              · exact Or.inl h
            · exact Or.inr (List.mem_cons_of_mem q h)

lemma mem_sortedPoints {l : List (α × α)} {p : α × α} (hp : p ∈ sortedPoints l) : p ∈ l := by
  unfold sortedPoints at hp
  rcases mem_dedupNear _ _ _ hp with h | h
  · simp at h
  · exact mem_sortPairs.mp h

lemma dedupNear_ne_nil :
    ∀ (l accRev : List (α × α)), accRev ≠ [] → dedupNear accRev l ≠ [] := by
  intro l
  induction l with
  | nil =>
      intro accRev hne
      rw [dedupNear_nil]
      simpa using hne
  | cons q rest ih =>
      intro accRev hne
      cases accRev with
      | nil => exact absurd rfl hne
      | cons last tail =>
          rw [dedupNear_cons_cons]
          by_cases hc : |last.1 - q.1| < (1e-9 : α)
          · rw [if_pos hc]
            exact ih (q :: tail) (by simp)
          · rw [if_neg hc]
            exact ih (q :: last :: tail) (by simp)

lemma sortedPoints_ne_nil {l : List (α × α)} (hl : l ≠ []) : sortedPoints l ≠ [] := by
  unfold sortedPoints
  have hs : sortPairs l ≠ [] := by
    intro h
    have hperm := List.perm_insertionSort pairLe l
    unfold sortPairs at h
    rw [h] at hperm
    exact hl (List.Perm.nil_eq hperm).symm
  cases hsp : sortPairs l with
  | nil => exact absurd hsp hs
  | cons q rest =>
      rw [dedupNear_nil_cons]
      exact dedupNear_ne_nil rest [q] (by simp)

/-- The separation relation maintained by the deduplication: consecutive kept
offsets differ by at least `1e-9`. -/
def sepRel (p q : α × α) : Prop := p.1 + (1e-9 : α) ≤ q.1

lemma dedupNear_chain :
    ∀ (l accRev : List (α × α)),
      List.Chain' pairLe l →
      List.Chain' (sepRel (α := α)) accRev.reverse →
      (∀ a, accRev.head? = some a → ∀ q ∈ l, a.1 ≤ q.1) →
      List.Chain' (sepRel (α := α)) (dedupNear accRev l) := by
  intro l
  induction l with
  | nil =>
      intro accRev _ hacc _
      rw [dedupNear_nil]
      exact hacc
  | cons q rest ih =>
      intro accRev hl hacc hlink
      have hrest : List.Chain' pairLe rest := hl.tail
      have hqrest : ∀ r ∈ rest, q.1 ≤ r.1 := by
        intro r hr
        have hpw := List.chain'_iff_pairwise.mp hl
        exact pairLe_x (List.rel_of_pairwise_cons hpw hr)
      cases accRev with
      | nil =>
          rw [dedupNear_nil_cons]
          apply ih [q] hrest (by simp)
          intro a ha r hr
          simp only [List.head?_cons, Option.some.injEq] at ha
          exact ha ▸ hqrest r hr
      | cons last tail =>
          have hlq : last.1 ≤ q.1 :=
            hlink last rfl q (List.mem_cons_self q rest)
          rw [dedupNear_cons_cons]
          by_cases hc : |last.1 - q.1| < (1e-9 : α)
          · rw [if_pos hc]
            apply ih (q :: tail) hrest
            · rw [List.reverse_cons]
              rw [List.reverse_cons] at hacc
              rcases List.chain'_append.mp hacc with ⟨h1, _, h3⟩
              apply List.chain'_append.mpr
              refine ⟨h1, List.chain'_singleton q, ?_⟩
              intro x hx y hy
              simp only [List.head?_cons, Option.mem_def, Option.some.injEq] at hy
              subst hy
              have hxl := h3 x hx last (by simp)
              unfold sepRel at hxl ⊢
              linarith
            · intro a ha r hr
              simp only [List.head?_cons, Option.some.injEq] at ha
              exact ha ▸ hqrest r hr
          · rw [if_neg hc]
            apply ih (q :: last :: tail) hrest
            · rw [List.reverse_cons, List.reverse_cons]
              rw [List.reverse_cons] at hacc
              have hsep : sepRel last q := by
                unfold sepRel
                have habs : |last.1 - q.1| = q.1 - last.1 := by
                  rw [abs_sub_comm]
                  exact abs_of_nonneg (by linarith)
                rw [habs] at hc
                push_neg at hc
                linarith
              apply List.chain'_append.mpr
              refine ⟨hacc, List.chain'_singleton q, ?_⟩
              intro x hx y hy
              simp only [List.head?_cons, Option.mem_def, Option.some.injEq] at hy
              subst hy
              rw [List.getLast?_append_of_ne_nil _ (by simp)] at hx
              simp only [List.getLast?_singleton, Option.mem_def, Option.some.injEq] at hx
              exact hx ▸ hsep
            · intro a ha r hr
              simp only [List.head?_cons, Option.some.injEq] at ha
              exact ha ▸ hqrest r hr

lemma sortedPoints_chain (l : List (α × α)) :
    List.Chain' (sepRel (α := α)) (sortedPoints l) := by
  unfold sortedPoints
  exact dedupNear_chain (sortPairs l) [] (sortPairs_sorted l) (by simp) (by simp)

lemma chain_restrict {β : Type} {R S : β → β → Prop} {P : β → Prop} :
    ∀ l : List β, List.Chain' R l → (∀ b ∈ l, P b) →
      (∀ a b, P a → P b → R a b → S a b) → List.Chain' S l := by
  intro l
  induction l with
  | nil => intro _ _ _; exact List.chain'_nil
  | cons a t ih =>
      intro hc hmem himp
      cases t with
      | nil => exact List.chain'_singleton a
      | cons b t' =>
          rw [List.chain'_cons] at hc ⊢
          refine ⟨himp a b (hmem a (by simp)) (hmem b (by simp)) hc.1, ?_⟩
          exact ih hc.2 (fun x hx => hmem x (List.mem_cons_of_mem a hx)) himp

lemma interpAux_nil (x : α) (p : α × α) : interpAux x p [] = p.2 := rfl

lemma interpAux_cons (x : α) (p q : α × α) (rest : List (α × α)) :
    interpAux x p (q :: rest) =
      if p.1 ≤ x ∧ x ≤ q.1 then
        (if |q.1 - p.1| < (1e-12 : α) then p.2
         else p.2 + (x - p.1) / (q.1 - p.1) * (q.2 - p.2))
      else interpAux x q rest := rfl

/-- The combined strict-offset / non-decreasing-attenuation relation on a
cleaned mask. -/
def monoRel (p q : α × α) : Prop := p.1 < q.1 ∧ p.2 ≤ q.2

lemma interpAux_ge (x : α) :
    ∀ (l : List (α × α)) (p : α × α),
      List.Chain' (monoRel (α := α)) (p :: l) → p.1 ≤ x → p.2 ≤ interpAux x p l := by
  intro l
  induction l with
  | nil =>
      intro p _ _
      rw [interpAux_nil]
  | cons q rest ih =>
      intro p hc hpx
      rw [List.chain'_cons] at hc
      obtain ⟨⟨hxq, hyq⟩, hc2⟩ := hc
      rw [interpAux_cons]
      by_cases hseg : p.1 ≤ x ∧ x ≤ q.1
      · rw [if_pos hseg]
        by_cases hflat : |q.1 - p.1| < (1e-12 : α)
        · rw [if_pos hflat]
        · rw [if_neg hflat]
          have ht : (0 : α) ≤ (x - p.1) / (q.1 - p.1) :=
            div_nonneg (by linarith [hseg.1]) (by linarith)
          have := mul_nonneg ht (by linarith : (0 : α) ≤ q.2 - p.2)
          linarith
      · rw [if_neg hseg]
        have hqx : q.1 ≤ x := by
          rcases not_and_or.mp hseg with h | h
          · exact absurd hpx h
          · exact le_of_lt (not_le.mp h)
        exact le_trans hyq (ih q hc2 hqx)

lemma interpAux_mono (x x' : α) (hxx : x ≤ x') :
    ∀ (l : List (α × α)) (p : α × α),
      List.Chain' (monoRel (α := α)) (p :: l) → p.1 ≤ x →
      interpAux x p l ≤ interpAux x' p l := by
  intro l
  induction l with
  | nil =>
      intro p _ _
      rw [interpAux_nil, interpAux_nil]
  | cons q rest ih =>
      intro p hc hpx
      rw [List.chain'_cons] at hc
      obtain ⟨⟨hxq, hyq⟩, hc2⟩ := hc
      have hpx' : p.1 ≤ x' := le_trans hpx hxx
      have hd : (0 : α) < q.1 - p.1 := by linarith
      rw [interpAux_cons, interpAux_cons]
      by_cases hx1 : x ≤ q.1
      · rw [if_pos (show p.1 ≤ x ∧ x ≤ q.1 from ⟨hpx, hx1⟩)]
        by_cases hx2 : x' ≤ q.1
        · rw [if_pos (show p.1 ≤ x' ∧ x' ≤ q.1 from ⟨hpx', hx2⟩)]
          by_cases hflat : |q.1 - p.1| < (1e-12 : α)
          · rw [if_pos hflat, if_pos hflat]
          · rw [if_neg hflat, if_neg hflat]
            have ht : (x - p.1) / (q.1 - p.1) ≤ (x' - p.1) / (q.1 - p.1) :=
              (div_le_div_iff_of_pos_right hd).mpr (by linarith)
            have hmul := mul_le_mul_of_nonneg_right ht (by linarith : (0 : α) ≤ q.2 - p.2)
            linarith
        · rw [if_neg (show ¬(p.1 ≤ x' ∧ x' ≤ q.1) from fun h => hx2 h.2)]
          have hub : (if |q.1 - p.1| < (1e-12 : α) then p.2
              else p.2 + (x - p.1) / (q.1 - p.1) * (q.2 - p.2)) ≤ q.2 := by
            by_cases hflat : |q.1 - p.1| < (1e-12 : α)
            · rw [if_pos hflat]
              exact hyq
            · rw [if_neg hflat]
              have ht1 : (x - p.1) / (q.1 - p.1) ≤ 1 := (div_le_one hd).mpr (by linarith)
              have hmul := mul_le_mul_of_nonneg_right ht1 (by linarith : (0 : α) ≤ q.2 - p.2)
              linarith
          have hlb := interpAux_ge x' rest q hc2 (le_of_lt (not_le.mp hx2))
          linarith
      · have hq_lt : q.1 < x := not_le.mp hx1
        rw [if_neg (show ¬(p.1 ≤ x ∧ x ≤ q.1) from fun h => hx1 h.2),
          if_neg (show ¬(p.1 ≤ x' ∧ x' ≤ q.1) from
            fun h => absurd h.2 (not_le.mpr (lt_of_lt_of_le hq_lt hxx)))]
        exact ih q hc2 (le_of_lt hq_lt)

lemma interpolate_of_sorted (x : α) (pts : List (α × α)) (p : α × α) (rest : List (α × α))
    (h : sortedPoints pts = p :: rest) :
    interpolate_mask_db x pts = if x ≤ p.1 then p.2 else interpAux x p rest := by
  unfold interpolate_mask_db
  rw [h]

lemma sortedPoints_monoRel_chain (pts : List (α × α))
    (hmono : ∀ p ∈ pts, ∀ q ∈ pts, p.1 ≤ q.1 → p.2 ≤ q.2) :
    List.Chain' (monoRel (α := α)) (sortedPoints pts) := by
  apply chain_restrict (sortedPoints pts) (sortedPoints_chain pts)
    (fun p hp => mem_sortedPoints hp)
  intro a b ha hb hab
  unfold sepRel at hab
  have hx : a.1 < b.1 := by
    have : (0 : α) < 1e-9 := by norm_num
    linarith
  exact ⟨hx, hmono a ha b hb (le_of_lt hx)⟩

lemma interpolate_mono (pts : List (α × α)) (hne : pts ≠ [])
    (hmono : ∀ p ∈ pts, ∀ q ∈ pts, p.1 ≤ q.1 → p.2 ≤ q.2)
    (x x' : α) (hxx : x ≤ x') :
    interpolate_mask_db x pts ≤ interpolate_mask_db x' pts := by
  rcases hsp : sortedPoints pts with _ | ⟨p, rest⟩
  · exact absurd hsp (sortedPoints_ne_nil hne)
  · have hchain : List.Chain' (monoRel (α := α)) (p :: rest) := by
      rw [← hsp]
      exact sortedPoints_monoRel_chain pts hmono
    rw [interpolate_of_sorted x pts p rest hsp, interpolate_of_sorted x' pts p rest hsp]
    by_cases h1 : x ≤ p.1
    · rw [if_pos h1]
      by_cases h2 : x' ≤ p.1
      · rw [if_pos h2]
      · rw [if_neg h2]
        exact interpAux_ge x' rest p hchain (le_of_lt (not_le.mp h2))
    · rw [if_neg h1, if_neg (fun h => h1 (le_trans hxx h))]
      exact interpAux_mono x x' hxx rest p hchain (le_of_lt (not_le.mp h1))

end MaskLemmas

noncomputable section C4Theorems

open Real

lemma acir_db_mono {a a' b b' : ℝ} (ha : a ≤ a') (hb : b ≤ b') :
    acir_db a b ≤ acir_db a' b' := by
  unfold acir_db pow10 log10
  have h1 : (10 : ℝ) ^ (-a' / 10) ≤ (10 : ℝ) ^ (-a / 10) := by
    rw [Real.rpow_le_rpow_left_iff (by norm_num : (1 : ℝ) < 10)]
    linarith
  have h2 : (10 : ℝ) ^ (-b' / 10) ≤ (10 : ℝ) ^ (-b / 10) := by
    rw [Real.rpow_le_rpow_left_iff (by norm_num : (1 : ℝ) < 10)]
    linarith
  have hs' : (0 : ℝ) < (10 : ℝ) ^ (-a' / 10) + (10 : ℝ) ^ (-b' / 10) := by positivity
  have hinv : 1 / ((10 : ℝ) ^ (-a / 10) + (10 : ℝ) ^ (-b / 10)) ≤
      1 / ((10 : ℝ) ^ (-a' / 10) + (10 : ℝ) ^ (-b' / 10)) :=
    one_div_le_one_div_of_le hs' (by linarith)
  have hlog := Real.logb_le_logb_of_le (b := 10) (by norm_num) (by positivity) hinv
  linarith

/-- C4: ACIR monotonicity.  For every pair of non-empty Tx/Rx mask tables
whose attenuations are non-decreasing in offset, the combined ACIR obtained by
interpolating both masks and applying the parallel-paths rule is non-decreasing
in the offset (on all offsets, in particular those covered by the tables). -/
theorem C4_acir_monotone :
    ∀ (txPts rxPts : List (ℝ × ℝ)) (o1 o2 : ℝ),
      txPts ≠ [] → rxPts ≠ [] →
      (∀ p ∈ txPts, ∀ q ∈ txPts, p.1 ≤ q.1 → p.2 ≤ q.2) →
      (∀ p ∈ rxPts, ∀ q ∈ rxPts, p.1 ≤ q.1 → p.2 ≤ q.2) →
      o1 ≤ o2 →
      acir_db_from_masks o1 txPts rxPts ≤ acir_db_from_masks o2 txPts rxPts := by
  intro txPts rxPts o1 o2 htx hrx htxm hrxm h12
  unfold acir_db_from_masks
  exact acir_db_mono (interpolate_mono txPts htx htxm o1 o2 h12)
    (interpolate_mono rxPts hrx hrxm o1 o2 h12)

/-- Witness for C4 on two concrete monotone two-point masks at offsets
15 and 30 MHz. -/
theorem C4_acir_monotone_witness :
    ([((10 : ℝ), 20), (40, 50)] : List (ℝ × ℝ)) ≠ [] ∧
    ([((10 : ℝ), 18), (40, 45)] : List (ℝ × ℝ)) ≠ [] ∧
    (∀ p ∈ ([((10 : ℝ), 20), (40, 50)] : List (ℝ × ℝ)),
      ∀ q ∈ ([((10 : ℝ), 20), (40, 50)] : List (ℝ × ℝ)), p.1 ≤ q.1 → p.2 ≤ q.2) ∧
    (∀ p ∈ ([((10 : ℝ), 18), (40, 45)] : List (ℝ × ℝ)),
      ∀ q ∈ ([((10 : ℝ), 18), (40, 45)] : List (ℝ × ℝ)), p.1 ≤ q.1 → p.2 ≤ q.2) ∧
    (15 : ℝ) ≤ 30 ∧
    acir_db_from_masks 15 [((10 : ℝ), 20), (40, 50)] [((10 : ℝ), 18), (40, 45)] ≤
      acir_db_from_masks 30 [((10 : ℝ), 20), (40, 50)] [((10 : ℝ), 18), (40, 45)] := by
  have htx : ([((10 : ℝ), 20), (40, 50)] : List (ℝ × ℝ)) ≠ [] := by simp
  have hrx : ([((10 : ℝ), 18), (40, 45)] : List (ℝ × ℝ)) ≠ [] := by simp
  have htxm : ∀ p ∈ ([((10 : ℝ), 20), (40, 50)] : List (ℝ × ℝ)),
      ∀ q ∈ ([((10 : ℝ), 20), (40, 50)] : List (ℝ × ℝ)), p.1 ≤ q.1 → p.2 ≤ q.2 := by
    intro p hp q hq hle
    fin_cases hp <;> fin_cases hq <;> norm_num at hle ⊢
  have hrxm : ∀ p ∈ ([((10 : ℝ), 18), (40, 45)] : List (ℝ × ℝ)),
      ∀ q ∈ ([((10 : ℝ), 18), (40, 45)] : List (ℝ × ℝ)), p.1 ≤ q.1 → p.2 ≤ q.2 := by
    intro p hp q hq hle
    fin_cases hp <;> fin_cases hq <;> norm_num at hle ⊢
  exact ⟨htx, hrx, htxm, hrxm, by norm_num,
    C4_acir_monotone _ _ 15 30 htx hrx htxm hrxm (by norm_num)⟩

end C4Theorems

section C5Lemmas

variable {α : Type} [LinearOrderedField α]

instance sepRel_trans : IsTrans (α × α) (sepRel (α := α)) := by
  constructor
  intro a b c hab hbc
  unfold sepRel at hab hbc ⊢
  have heps : (0 : α) < 1e-9 := by norm_num
  linarith

lemma interpAux_all_lt (x : α) :
    ∀ (l : List (α × α)) (p : α × α), (∀ r ∈ l, r.1 < x) →
      interpAux x p l = ((p :: l).getLast (List.cons_ne_nil p l)).2 := by
  intro l
  induction l with
  | nil =>
      intro p _
      rw [interpAux_nil]
      simp
  | cons q rest ih =>
      intro p hlt
      rw [interpAux_cons]
      rw [if_neg (show ¬(p.1 ≤ x ∧ x ≤ q.1) from
        fun h => absurd h.2 (not_le.mpr (hlt q (List.mem_cons_self q rest))))]
      rw [ih q (fun r hr => hlt r (List.mem_cons_of_mem q hr))]
      simp [List.getLast_cons]

lemma chain_le_getLast :
    ∀ (l : List (α × α)) (h : l ≠ []), List.Chain' (sepRel (α := α)) l →
      ∀ r ∈ l, r.1 ≤ (l.getLast h).1 := by
  intro l
  induction l with
  | nil => intro h; exact absurd rfl h
  | cons a t ih =>
      intro _ hc r hr
      cases t with
      | nil =>
          simp only [List.mem_singleton] at hr
          subst hr
          simp
      | cons b t' =>
          rw [List.chain'_cons] at hc
          rw [List.getLast_cons (List.cons_ne_nil b t')]
          rcases List.mem_cons.mp hr with hr | hr
          · subst hr
            have hb := ih (List.cons_ne_nil b t') hc.2 b (List.mem_cons_self b t')
            unfold sepRel at hc
            have heps : (0 : α) < 1e-9 := by norm_num
            linarith [hc.1]
          · exact ih (List.cons_ne_nil b t') hc.2 r hr

lemma interpAux_segment (x : α) (p q : α × α) (l₂ : List (α × α)) (hpx : p.1 < x)
    (hxq : x ≤ q.1) :
    ∀ (m : List (α × α)) (p0 : α × α) (ll : List (α × α)),
      p0 :: ll = m ++ p :: q :: l₂ →
      List.Chain' (sepRel (α := α)) (p0 :: ll) →
      interpAux x p0 ll = p.2 + (x - p.1) / (q.1 - p.1) * (q.2 - p.2) := by
  intro m
  induction m with
  | nil =>
      intro p0 ll heq hc
      simp only [List.nil_append, List.cons.injEq] at heq
      obtain ⟨hp0, hll⟩ := heq
      subst hll
      rw [hp0] at hc ⊢
      rw [List.chain'_cons] at hc
      have hsep : sepRel p q := hc.1
      unfold sepRel at hsep
      rw [interpAux_cons]
      rw [if_pos ⟨le_of_lt hpx, hxq⟩]
      rw [if_neg (show ¬(|q.1 - p.1| < (1e-12 : α)) by
        rw [abs_of_nonneg (by linarith)]
        push_neg
        have heps : (1e-12 : α) ≤ (1e-9 : α) := by norm_num
        linarith)]
  | cons a m' ih =>
      intro p0 ll heq hc
      rw [List.cons_append] at heq
      simp only [List.cons.injEq] at heq
      obtain ⟨hp0, hll⟩ := heq
      subst hp0
      cases m' with
      | nil =>
          simp only [List.nil_append] at hll
          subst hll
          rw [interpAux_cons]
          rw [if_neg (show ¬(p0.1 ≤ x ∧ x ≤ p.1) from fun h => absurd hpx (not_lt.mpr h.2))]
          exact ih p (q :: l₂) rfl hc.tail
      | cons b m'' =>
          rw [List.cons_append] at hll
          subst hll
          have hc2 := hc.tail
          have hbp : b.1 ≤ p.1 := by
            have hchain : List.Chain' (sepRel (α := α)) (b :: (m'' ++ p :: q :: l₂)) := hc2
            have hpw := List.chain'_iff_pairwise.mp hchain
            have hp_mem : p ∈ m'' ++ p :: q :: l₂ := by
              rw [List.mem_append]
              exact Or.inr (List.mem_cons_self p _)
            have := List.rel_of_pairwise_cons hpw hp_mem
            unfold sepRel at this
            have heps : (0 : α) < 1e-9 := by norm_num
            linarith
          rw [interpAux_cons]
          rw [if_neg (show ¬(p0.1 ≤ x ∧ x ≤ b.1) from
            fun h => absurd (lt_of_lt_of_le hpx (le_trans h.2 hbp)) (lt_irrefl p.1))]
          exact ih b (m'' ++ p :: q :: l₂) rfl hc2

lemma dedupNear_tail_mem :
    ∀ (l accRev : List (α × α)) (p : α × α), p ∈ accRev.tail → p ∈ dedupNear accRev l := by
  intro l
  induction l with
  | nil =>
      intro accRev p hp
      rw [dedupNear_nil, List.mem_reverse]
      exact List.mem_of_mem_tail hp
  | cons q rest ih =>
      intro accRev p hp
      cases accRev with
      | nil => simp at hp
      | cons last tl =>
          simp only [List.tail_cons] at hp
          rw [dedupNear_cons_cons]
          by_cases hc : |last.1 - q.1| < (1e-9 : α)
          · rw [if_pos hc]
            exact ih (q :: tl) p (by simpa using hp)
          · rw [if_neg hc]
            exact ih (q :: last :: tl) p (by simp [List.mem_cons_of_mem, hp])

lemma dedupNear_head_dominated (P : α × α → Prop)
    (hP : ∀ a b, P a → P b → a.1 ≠ b.1 → (1e-9 : α) ≤ |a.1 - b.1|) :
    ∀ (l : List (α × α)) (tl : List (α × α)) (h : α × α),
      List.Chain' pairLe l → (∀ r ∈ l, pairLe h r) → P h → (∀ r ∈ l, P r) →
      ∃ q' ∈ dedupNear (h :: tl) l, q'.1 = h.1 ∧ h.2 ≤ q'.2 := by
  intro l
  induction l with
  | nil =>
      intro tl h _ _ _ _
      rw [dedupNear_nil]
      exact ⟨h, by simp, rfl, le_refl _⟩
  | cons q rest ih =>
      intro tl h hchain hlink hPh hPl
      rw [dedupNear_cons_cons]
      by_cases hc : |h.1 - q.1| < (1e-9 : α)
      · rw [if_pos hc]
        have hqx : h.1 = q.1 := by
          by_contra hne
          exact absurd hc (not_lt.mpr (hP h q hPh (hPl q (List.mem_cons_self q rest)) hne))
        have hqy : h.2 ≤ q.2 := by
          rcases hlink q (List.mem_cons_self q rest) with hlt | ⟨_, hy⟩
          · exact absurd hqx (ne_of_lt hlt)
          · exact hy
        obtain ⟨q', hq'mem, hq'x, hq'y⟩ := ih tl q hchain.tail
          (fun r hr => List.rel_of_pairwise_cons (List.chain'_iff_pairwise.mp hchain) hr)
          (hPl q (List.mem_cons_self q rest)) (fun r hr => hPl r (List.mem_cons_of_mem q hr))
        exact ⟨q', hq'mem, by rw [hq'x, ← hqx], le_trans hqy hq'y⟩
      · rw [if_neg hc]
        refine ⟨h, dedupNear_tail_mem rest (q :: h :: tl) h (by simp), rfl, le_refl _⟩

lemma dedupNear_max_wins (P : α × α → Prop)
    (hP : ∀ a b, P a → P b → a.1 ≠ b.1 → (1e-9 : α) ≤ |a.1 - b.1|) :
    ∀ (l accRev : List (α × α)) (p : α × α),
      p ∈ l → List.Chain' pairLe l →
      (∀ a, accRev.head? = some a → ∀ r ∈ l, pairLe a r) →
      (∀ r ∈ l, P r) →
      ∃ q' ∈ dedupNear accRev l, q'.1 = p.1 ∧ p.2 ≤ q'.2 := by
  intro l
  induction l with
  | nil =>
      intro accRev p hp
      simp at hp
  | cons q rest ih =>
      intro accRev p hp hchain hlink hPl
      have hqrest : ∀ r ∈ rest, pairLe q r :=
        fun r hr => List.rel_of_pairwise_cons (List.chain'_iff_pairwise.mp hchain) hr
      rcases List.mem_cons.mp hp with hpq | hprest
      · subst hpq
        cases accRev with
        | nil =>
            rw [dedupNear_nil_cons]
            exact dedupNear_head_dominated P hP rest [] p hchain.tail hqrest
              (hPl p (List.mem_cons_self p rest))
              (fun r hr => hPl r (List.mem_cons_of_mem p hr))
        | cons last tl =>
            rw [dedupNear_cons_cons]
            by_cases hc : |last.1 - p.1| < (1e-9 : α)
            · rw [if_pos hc]
              exact dedupNear_head_dominated P hP rest tl p hchain.tail hqrest
                (hPl p (List.mem_cons_self p rest))
                (fun r hr => hPl r (List.mem_cons_of_mem p hr))
            · rw [if_neg hc]
              exact dedupNear_head_dominated P hP rest (last :: tl) p hchain.tail hqrest
                (hPl p (List.mem_cons_self p rest))
                (fun r hr => hPl r (List.mem_cons_of_mem p hr))
      · cases accRev with
        | nil =>
            rw [dedupNear_nil_cons]
            apply ih [q] p hprest hchain.tail
            · intro a ha r hr
              simp only [List.head?_cons, Option.some.injEq] at ha
              exact ha ▸ hqrest r hr
            · exact fun r hr => hPl r (List.mem_cons_of_mem q hr)
        | cons last tl =>
            rw [dedupNear_cons_cons]
            by_cases hc : |last.1 - q.1| < (1e-9 : α)
            · rw [if_pos hc]
              apply ih (q :: tl) p hprest hchain.tail
              · intro a ha r hr
                simp only [List.head?_cons, Option.some.injEq] at ha
                exact ha ▸ hqrest r hr
              · exact fun r hr => hPl r (List.mem_cons_of_mem q hr)
            · rw [if_neg hc]
              apply ih (q :: last :: tl) p hprest hchain.tail
              · intro a ha r hr
                simp only [List.head?_cons, Option.some.injEq] at ha
                exact ha ▸ hqrest r hr
              · exact fun r hr => hPl r (List.mem_cons_of_mem q hr)

lemma sortedPoints_max_wins {pts : List (α × α)}
    (hsep : ∀ a ∈ pts, ∀ b ∈ pts, a.1 ≠ b.1 → (1e-9 : α) ≤ |a.1 - b.1|) :
    ∀ p ∈ pts, ∃ q ∈ sortedPoints pts, q.1 = p.1 ∧ p.2 ≤ q.2 := by
  intro p hp
  unfold sortedPoints
  exact dedupNear_max_wins (· ∈ pts) (fun a b ha hb hne => hsep a ha b hb hne)
    (sortPairs pts) [] p (mem_sortPairs.mpr hp) (sortPairs_sorted pts)
    (by simp) (fun r hr => mem_sortPairs.mp hr)

end C5Lemmas

section C5Theorems

/-- C5 counterexample: on the list `[(10, 30), (10, 20)]` the latest-listed
duplicate carries attenuation 20, but the interpolator returns 30 — sorting
by `(offset, attenuation)` reorders equal offsets by attenuation, so the
greatest attenuation survives the collapse, not the latest-listed one. -/
theorem C5_counterexample_latest_listed_loses :
    interpolate_mask_db (10 : ℚ) [(10, 30), (10, 20)] = 30 ∧ (30 : ℚ) ≠ 20 := by
  constructor
  · norm_num [interpolate_mask_db, sortedPoints, sortPairs, List.insertionSort,
      List.orderedInsert, pairLe, dedupNear, interpAux]
  · norm_num

/-- C5 (amended): mask interpolation semantics for every non-empty point list
and query offset, stated on the collapsed list `sortedPoints`: the collapse is
non-empty, offsets at or below the first collapsed point return its
attenuation (flat-left), offsets above the last return the last attenuation
(flat-right), offsets between two consecutive collapsed points return the
linear interpolation in the dB domain, every collapsed point is one of the
listed points, and — for lists whose distinct offsets are at least `1e-9`
apart, so that only true duplicates collapse — the surviving point at each
offset carries the greatest listed attenuation (not the latest-listed one). -/
theorem C5_amended_mask_semantics {α : Type} [LinearOrderedField α] :
    ∀ (pts : List (α × α)) (x : α), pts ≠ [] →
      sortedPoints pts ≠ [] ∧
      (∀ p, (sortedPoints pts).head? = some p → x ≤ p.1 →
        interpolate_mask_db x pts = p.2) ∧
      (∀ p, (sortedPoints pts).getLast? = some p → p.1 < x →
        interpolate_mask_db x pts = p.2) ∧
      (∀ l₁ p q l₂, sortedPoints pts = l₁ ++ p :: q :: l₂ → p.1 < x → x ≤ q.1 →
        interpolate_mask_db x pts = p.2 + (x - p.1) / (q.1 - p.1) * (q.2 - p.2)) ∧
      (∀ p ∈ sortedPoints pts, p ∈ pts) ∧
      ((∀ a ∈ pts, ∀ b ∈ pts, a.1 ≠ b.1 → (1e-9 : α) ≤ |a.1 - b.1|) →
        ∀ p ∈ pts, ∃ q ∈ sortedPoints pts, q.1 = p.1 ∧ p.2 ≤ q.2) := by
  intro pts x hne
  refine ⟨sortedPoints_ne_nil hne, ?_, ?_, ?_, fun p hp => mem_sortedPoints hp,
    fun hsep => sortedPoints_max_wins hsep⟩
  · intro p hhead hx
    rcases hsp : sortedPoints pts with _ | ⟨p0, rest⟩
    · exact absurd hsp (sortedPoints_ne_nil hne)
    · rw [hsp] at hhead
      simp only [List.head?_cons, Option.some.injEq] at hhead
      have hx0 : x ≤ p0.1 := by
        rw [hhead]
        exact hx
      rw [interpolate_of_sorted x pts p0 rest hsp, if_pos hx0, hhead]
  · intro p hlast hx
    rcases hsp : sortedPoints pts with _ | ⟨p0, rest⟩
    · exact absurd hsp (sortedPoints_ne_nil hne)
    · have hchain : List.Chain' (sepRel (α := α)) (p0 :: rest) := by
        rw [← hsp]
        exact sortedPoints_chain pts
      rw [hsp] at hlast
      have hpeq : p = (p0 :: rest).getLast (List.cons_ne_nil p0 rest) := by
        rw [List.getLast?_eq_getLast _ (List.cons_ne_nil p0 rest)] at hlast
        simp only [Option.some.injEq] at hlast
        exact hlast.symm
      have hall : ∀ r ∈ p0 :: rest, r.1 ≤ p.1 := by
        intro r hr
        rw [hpeq]
        exact chain_le_getLast (p0 :: rest) (List.cons_ne_nil p0 rest) hchain r hr
      have hp0 : p0.1 < x :=
        lt_of_le_of_lt (hall p0 (List.mem_cons_self p0 rest)) hx
      rw [interpolate_of_sorted x pts p0 rest hsp, if_neg (not_le.mpr hp0)]
      rw [interpAux_all_lt x rest p0 (fun r hr =>
        lt_of_le_of_lt (hall r (List.mem_cons_of_mem p0 hr)) hx)]
      rw [hpeq]
  · intro l₁ p q l₂ hsplit hpx hxq
    rcases hsp : sortedPoints pts with _ | ⟨p0, rest⟩
    · rw [hsp] at hsplit
      exact absurd hsplit.symm (by simp)
    · have hchain : List.Chain' (sepRel (α := α)) (p0 :: rest) := by
        rw [← hsp]
        exact sortedPoints_chain pts
      rw [hsp] at hsplit
      have hp0p : p0.1 ≤ p.1 := by
        have hpmem : p ∈ p0 :: rest := by
          rw [hsplit]
          rw [List.mem_append]
          exact Or.inr (List.mem_cons_self p _)
        rcases List.mem_cons.mp hpmem with h | h
        · exact le_of_eq (congrArg Prod.fst h.symm)
        · have hpw := List.chain'_iff_pairwise.mp hchain
          have := List.rel_of_pairwise_cons hpw h
          unfold sepRel at this
          have heps : (0 : α) < 1e-9 := by norm_num
          linarith
      rw [interpolate_of_sorted x pts p0 rest hsp,
        if_neg (not_le.mpr (lt_of_le_of_lt hp0p hpx))]
      exact interpAux_segment x p q l₂ hpx hxq l₁ p0 rest hsplit hchain

/-- Witness for the amended C5 on `[(10, 30), (10, 20)]` at offset 5:
flat-left returns 30, the greatest attenuation at the duplicate offset. -/
theorem C5_amended_mask_semantics_witness :
    ([(10, 30), (10, 20)] : List (ℚ × ℚ)) ≠ [] ∧
    (sortedPoints ([(10, 30), (10, 20)] : List (ℚ × ℚ))).head? = some (10, 30) ∧
    (5 : ℚ) ≤ 10 ∧
    interpolate_mask_db (5 : ℚ) [(10, 30), (10, 20)] = 30 := by
  have hne : ([(10, 30), (10, 20)] : List (ℚ × ℚ)) ≠ [] := by simp
  have hsp : sortedPoints ([(10, 30), (10, 20)] : List (ℚ × ℚ)) = [(10, 30)] := by
    norm_num [sortedPoints, sortPairs, List.insertionSort, List.orderedInsert, pairLe,
      dedupNear]
  have hhead : (sortedPoints ([(10, 30), (10, 20)] : List (ℚ × ℚ))).head? = some (10, 30) := by
    rw [hsp]
    rfl
  refine ⟨hne, hhead, by norm_num, ?_⟩
  have h := (C5_amended_mask_semantics [(10, 30), (10, 20)] (5 : ℚ) hne).2.1 (10, 30) hhead
    (by norm_num)
  simpa using h

end C5Theorems

noncomputable section C7Theorems

/-- A location dict with numeric coordinates at the origin and none of the
three horizontal-uncertainty fields. -/
def originLoc : LocationDict := ⟨some 0, some 0, false, false, false⟩

/-- A request giving `inquiredFrequencyRange` as a single dict and
`inquiredChannels` as a list, with a valid location and no certification. -/
def c7Request : InquiryRequest :=
  { location := some originLoc
    device := none
    certification := none
    inquiredFrequencyRange := .single ⟨some (6000, 6001), none⟩
    inquiredChannels := .list [⟨true, none, .ints [1], none⟩]
    hasMinDesiredPower := false
    environment := none
    pathModel := none
    protectionMarginDb := none
    mergeBins := none
    mergeToleranceDb := none
    bandwidthMHz := none }

/-- C7 counterexample: the mutual-exclusion guard fires only when both fields
are *lists*; a request carrying `inquiredFrequencyRange` as a single dict
together with an `inquiredChannels` list slips past it (the dict is
normalized to a one-element list only after the guard) and is answered
through the frequency path with `responseCode` 0, not 106. -/
theorem C7_counterexample_single_dict_bypasses_check :
    (c7Request.inquiredFrequencyRange ≠ .absent ∧ c7Request.inquiredChannels ≠ .absent) ∧
    Except.map SpectrumResponse.responseCode
      (handle_available_spectrum_inquiry c7Request specSample [] none none none none none none)
      = .ok 0 ∧ (0 : ℤ) ≠ 106 := by
  refine ⟨⟨fun h => FreqField.noConfusion h, fun h => ChanField.noConfusion h⟩, ?_, by norm_num⟩
  have h1 : handle_available_spectrum_inquiry c7Request specSample [] none none none none none
      none
      = .ok (freqLoop c7Request specSample [] 0 0 EnvTag.urban 0 [⟨some (6000, 6001), none⟩] []) :=
    rfl
  have h2 : (freqLoop c7Request specSample [] 0 0 EnvTag.urban 0
      [⟨some (6000, 6001), none⟩] []).responseCode = 0 := by
    norm_num [freqLoop]
  rw [h1]
  simp only [Except.map]
  rw [h2]

/-- C7 (amended): when both `inquiredFrequencyRange` and `inquiredChannels`
are given as lists and the request passes location and certification
validation, the handler returns `responseCode` 106 with `unexpectedParams`
naming both fields and no availability info.  The guard requires both fields
to be lists: a single-dict `inquiredFrequencyRange` is normalized to a list
only after the guard and is then served through the frequency path. -/
theorem C7_amended_both_lists (request : InquiryRequest) (spec : SpecParameters)
    (incumbents : List IncRecord) (environment : Option EnvTag) (path_model : Option String)
    (protection_margin_db : Option ℝ) (l : LocationDict) (la lo : ℝ)
    (frs : List FreqRangeDict) (items : List ChanItemDict)
    (hloc : request.location = some l)
    (hlat : l.lat = some la) (hlon : l.lon = some lo)
    (hE : l.hasEllipse = false) (hLP : l.hasLinearPolygon = false)
    (hRP : l.hasRadialPolygon = false)
    (hfr : request.inquiredFrequencyRange = .list frs)
    (hch : request.inquiredChannels = .list items) :
    handle_available_spectrum_inquiry request spec incumbents environment path_model
        protection_margin_db none none none
      = .ok (mkSuppResponse 106
          (some ⟨none, none, some ["inquiredFrequencyRange", "inquiredChannels"]⟩)) ∧
    (mkSuppResponse 106
        (some ⟨none, none, some ["inquiredFrequencyRange", "inquiredChannels"]⟩)
      ).availableFrequencyInfo = none ∧
    (mkSuppResponse 106
        (some ⟨none, none, some ["inquiredFrequencyRange", "inquiredChannels"]⟩)
      ).availableChannelInfo = none := by
  refine ⟨?_, rfl, rfl⟩
  unfold handle_available_spectrum_inquiry
  simp [hloc, hlat, hlon, hE, hLP, hRP, hfr, hch]

/-- A request with both fields as lists, for the amended-C7 witness. -/
def c7wRequest : InquiryRequest :=
  { location := some originLoc
    device := none
    certification := none
    inquiredFrequencyRange := .list []
    inquiredChannels := .list []
    hasMinDesiredPower := false
    environment := none
    pathModel := none
    protectionMarginDb := none
    mergeBins := none
    mergeToleranceDb := none
    bandwidthMHz := none }

/-- Witness for the amended C7: a concrete both-lists request is answered
with the 106 response naming both fields. -/
theorem C7_amended_both_lists_witness :
    handle_available_spectrum_inquiry c7wRequest specSample [] none none none none none none
      = .ok (mkSuppResponse 106
          (some ⟨none, none, some ["inquiredFrequencyRange", "inquiredChannels"]⟩)) :=
  (C7_amended_both_lists c7wRequest specSample [] none none none originLoc 0 0 [] []
    rfl rfl rfl rfl rfl rfl rfl rfl).1

end C7Theorems

section C8Lemmas

/-- The low edge of a 1 MHz frequency bin is the bin index itself. -/
lemma freqBin_fst (spec : SpecParameters) (incumbents : List IncRecord) (ap_lat ap_lon : ℝ)
    (env : EnvTag) (margin : ℝ) (txPoints rxPoints : List (ℝ × ℝ)) (f : ℤ) :
    (freqBin spec incumbents ap_lat ap_lon env margin txPoints rxPoints f).1 = (f : ℝ) := rfl

/-- Bin merging only coalesces adjacent runs: the low edges of the merged
list form a sublist of the low edges of the reversed accumulator followed by
the remaining bins. -/
lemma mergeRev_map_fst_sublist (tol : ℝ) (bins : List (ℝ × ℝ × ℝ)) :
    ∀ accRev : List (ℝ × ℝ × ℝ),
      ((mergeRev tol accRev bins).map Prod.fst).Sublist
        ((accRev.reverse ++ bins).map Prod.fst) := by
  induction bins with
  | nil =>
      intro accRev
      simp only [mergeRev, List.append_nil]
      exact List.Sublist.refl _
  | cons b rest ih =>
      intro accRev
      cases accRev with
      | nil =>
          rw [show mergeRev tol [] (b :: rest) = mergeRev tol [b] rest from rfl]
          simpa using ih [b]
      | cons last accTail =>
          rw [show mergeRev tol (last :: accTail) (b :: rest)
              = if |last.2.2 - b.2.2| < tol ∧ |last.2.1 - b.1| < (1e-9 : ℝ) then
                  mergeRev tol ((last.1, b.2.1, last.2.2) :: accTail) rest
                else mergeRev tol (b :: last :: accTail) rest from rfl]
          split_ifs with hcond
          · refine (ih ((last.1, b.2.1, last.2.2) :: accTail)).trans ?_
            simp only [List.reverse_cons, List.append_assoc, List.map_append, List.map_cons,
              List.map_nil, List.singleton_append, List.nil_append, List.map_reverse]
            exact List.Sublist.append_left
              (List.Sublist.cons₂ _ (List.Sublist.cons _ (List.Sublist.refl _))) _
          · have h := ih (b :: last :: accTail)
            simpa [List.reverse_cons, List.append_assoc] using h

/-- The merged-or-not entry list keeps its lows inside the bin lows. -/
lemma merged_map_fst_sublist (tol : ℝ) (merge : Bool) (bins : List (ℝ × ℝ × ℝ)) :
    (((if merge = true then mergeRev tol [] bins else bins).map
        (fun b => (⟨b.1, b.2.1, b.2.2⟩ : FreqInfo))).map FreqInfo.lowMHz).Sublist
      (bins.map Prod.fst) := by
  rw [List.map_map]
  rw [show (FreqInfo.lowMHz ∘ fun b : ℝ × ℝ × ℝ => (⟨b.1, b.2.1, b.2.2⟩ : FreqInfo))
      = Prod.fst from rfl]
  split_ifs with hm
  · simpa using mergeRev_map_fst_sublist tol bins []
  · exact List.Sublist.refl _

/-- The low edges of one range's entries form a sublist of the integer bin
grid `start, start+1, …` truncated from the range bounds. -/
lemma rangeEntries_lows_sublist (req : InquiryRequest) (spec : SpecParameters)
    (incumbents : List IncRecord) (ap_lat ap_lon : ℝ) (env : EnvTag) (margin lo hi : ℝ) :
    ((rangeEntries req spec incumbents ap_lat ap_lon env margin lo hi).map
        FreqInfo.lowMHz).Sublist
      ((List.range (pyTrunc hi - pyTrunc lo).toNat).map
        (fun k : ℕ => ((pyTrunc lo + (k : ℤ) : ℤ) : ℝ))) := by
  unfold rangeEntries
  dsimp only
  refine (merged_map_fst_sublist _ _ _).trans ?_
  rw [List.map_map]
  exact List.Sublist.refl _

/-- The bin grid is non-decreasing. -/
lemma grid_pairwise (s : ℤ) (n : ℕ) :
    ((List.range n).map (fun k : ℕ => ((s + (k : ℤ) : ℤ) : ℝ))).Pairwise (· ≤ ·) := by
  rw [List.pairwise_map]
  refine (List.pairwise_lt_range n).imp ?_
  intro a b hab
  have h : s + (a : ℤ) ≤ s + (b : ℤ) := by omega
  exact_mod_cast h

/-- Every grid element is an integer between the truncated bounds. -/
lemma grid_mem_bounds (s e : ℤ) (x : ℝ)
    (hx : x ∈ (List.range (e - s).toNat).map (fun k : ℕ => ((s + (k : ℤ) : ℤ) : ℝ))) :
    ∃ j : ℤ, x = (j : ℝ) ∧ s ≤ j ∧ j < e := by
  simp only [List.mem_map, List.mem_range] at hx
  obtain ⟨k, hk, rfl⟩ := hx
  exact ⟨s + k, rfl, by omega, by omega⟩

/-- Python `int()` truncation is monotone. -/
lemma pyTrunc_mono {x y : ℝ} (h : x ≤ y) : pyTrunc x ≤ pyTrunc y := by
  unfold pyTrunc
  split_ifs with hx hy hy
  · exact Int.floor_le_floor h
  · exact absurd (le_trans hx h) hy
  · have h1 : Int.ceil x ≤ 0 :=
      Int.ceil_le.mpr (by exact_mod_cast le_of_lt (not_le.mp hx))
    have h2 : 0 ≤ Int.floor y := Int.floor_nonneg.mpr hy
    omega
  · exact Int.ceil_le_ceil h

/-- Truncation of an integer cast. -/
lemma pyTrunc_intCast (m : ℤ) : pyTrunc ((m : ℤ) : ℝ) = m := by
  unfold pyTrunc
  split_ifs <;> simp

/-- The bounds the loop reads from one range dict: the `lowMHz`/`highMHz`
pair if present, else the `startMHz`/`endMHz` pair. -/
def frBounds (fr : FreqRangeDict) : Option (ℝ × ℝ) :=
  match fr.lowHigh with
  | some p => some p
  | none => fr.startEnd

/-- One step of the range loop on a valid range. -/
lemma freqLoop_cons (req : InquiryRequest) (spec : SpecParameters) (incumbents : List IncRecord)
    (ap_lat ap_lon : ℝ) (env : EnvTag) (margin : ℝ) (fr : FreqRangeDict)
    (rest : List FreqRangeDict) (results : List FreqInfo) (lo₀ hi₀ : ℝ)
    (hb : frBounds fr = some (lo₀, hi₀)) (hlt : lo₀ < hi₀) :
    freqLoop req spec incumbents ap_lat ap_lon env margin (fr :: rest) results
      = freqLoop req spec incumbents ap_lat ap_lon env margin rest
          (results ++ rangeEntries req spec incumbents ap_lat ap_lon env margin lo₀ hi₀) := by
  obtain ⟨flh, fse⟩ := fr
  cases flh with
  | some p =>
      simp only [frBounds] at hb
      injection hb with hb'
      subst hb'
      simp only [freqLoop]
      rw [if_neg (not_le.mpr hlt)]
  | none =>
      simp only [frBounds] at hb
      subst hb
      simp only [freqLoop]
      rw [if_neg (not_le.mpr hlt)]

/-- The range loop, on ranges that are valid and listed in increasing order,
extends an accumulator whose lows are non-decreasing and bounded by the next
range's truncated start into a success response with non-decreasing lows. -/
lemma freqLoop_sorted (req : InquiryRequest) (spec : SpecParameters)
    (incumbents : List IncRecord) (ap_lat ap_lon : ℝ) (env : EnvTag) (margin : ℝ)
    (frs : List FreqRangeDict) :
    ∀ results : List FreqInfo,
      (∀ fr ∈ frs, ∃ p, frBounds fr = some p ∧ p.1 < p.2) →
      List.Chain' (fun fr fr' => ∀ p p', frBounds fr = some p → frBounds fr' = some p' →
        p.2 ≤ p'.1) frs →
      (results.map FreqInfo.lowMHz).Pairwise (· ≤ ·) →
      (∀ x ∈ results.map FreqInfo.lowMHz, ∀ fr' ∈ frs.head?, ∀ p',
        frBounds fr' = some p' → x ≤ ((pyTrunc p'.1 : ℤ) : ℝ)) →
      ∃ infos, freqLoop req spec incumbents ap_lat ap_lon env margin frs results
          = { responseCode := 0
              supplementalInfo := none
              hasExpireTime := true
              availableFrequencyInfo := some infos
              availableChannelInfo := none } ∧
        (infos.map FreqInfo.lowMHz).Pairwise (· ≤ ·) := by
  induction frs with
  | nil =>
      intro results _ _ hres _
      exact ⟨results, rfl, hres⟩
  | cons fr rest ih =>
      intro results hvalid hchain hres hbound
      obtain ⟨⟨lo₀, hi₀⟩, hb, hlt⟩ := hvalid fr (List.mem_cons_self fr rest)
      rw [freqLoop_cons req spec incumbents ap_lat ap_lon env margin fr rest results lo₀ hi₀
        hb hlt]
      have hsubl := rangeEntries_lows_sublist req spec incumbents ap_lat ap_lon env margin
        lo₀ hi₀
      have hnew_bounds : ∀ y ∈ (rangeEntries req spec incumbents ap_lat ap_lon env margin
          lo₀ hi₀).map FreqInfo.lowMHz,
          ∃ j : ℤ, y = (j : ℝ) ∧ pyTrunc lo₀ ≤ j ∧ j < pyTrunc hi₀ := by
        intro y hy
        exact grid_mem_bounds (pyTrunc lo₀) (pyTrunc hi₀) y (hsubl.subset hy)
      refine ih (results ++ rangeEntries req spec incumbents ap_lat ap_lon env margin lo₀ hi₀)
        (fun fr' hfr' => hvalid fr' (List.mem_cons_of_mem fr hfr')) hchain.tail ?_ ?_
      · rw [List.map_append]
        rw [List.pairwise_append]
        refine ⟨hres, (grid_pairwise _ _).sublist hsubl, ?_⟩
        intro x hx y hy
        have hxle : x ≤ ((pyTrunc lo₀ : ℤ) : ℝ) :=
          hbound x hx fr (by simp) (lo₀, hi₀) hb
        obtain ⟨j, rfl, hj1, _⟩ := hnew_bounds y hy
        exact le_trans hxle (by exact_mod_cast hj1)
      · intro x hx fr' hfr' p' hb'
        have hrel : hi₀ ≤ p'.1 := by
          cases rest with
          | nil => simp at hfr'
          | cons f1 r1 =>
              simp only [List.head?_cons, Option.mem_def, Option.some.injEq] at hfr'
              subst hfr'
              exact (List.chain'_cons.mp hchain).1 (lo₀, hi₀) p' hb hb'
        rw [List.map_append, List.mem_append] at hx
        have htr : pyTrunc hi₀ ≤ pyTrunc p'.1 := pyTrunc_mono hrel
        rcases hx with hx | hx
        · have h1 := hbound x hx fr (by simp) (lo₀, hi₀) hb
          have h2 : pyTrunc lo₀ ≤ pyTrunc p'.1 :=
            pyTrunc_mono (le_trans (le_of_lt hlt) hrel)
          exact le_trans h1 (by exact_mod_cast h2)
        · obtain ⟨j, rfl, _, hj2⟩ := hnew_bounds x hx
          have : j ≤ pyTrunc p'.1 := by omega
          exact_mod_cast this

end C8Lemmas

noncomputable section C8Theorems

/-- With no incumbents, a one-bin range `[m, m+1]` produces exactly one
entry whose low edge is `m`. -/
lemma rangeEntries_lows_concrete (req : InquiryRequest) (spec : SpecParameters)
    (incumbents : List IncRecord) (ap_lat ap_lon : ℝ) (env : EnvTag) (margin : ℝ) (m : ℤ)
    (hmb : req.mergeBins = none) :
    (rangeEntries req spec incumbents ap_lat ap_lon env margin ((m : ℤ) : ℝ)
        (((m + 1 : ℤ) : ℤ) : ℝ)).map FreqInfo.lowMHz = [((m : ℤ) : ℝ)] := by
  unfold rangeEntries
  dsimp only
  rw [pyTrunc_intCast, pyTrunc_intCast, hmb]
  rw [show (m + 1 - m : ℤ) = 1 from by omega]
  rw [show List.range (Int.toNat 1) = [0] from by simp [List.range_succ]]
  simp only [Option.getD_none, if_true, List.map_cons,
    List.map_nil, mergeRev, List.reverse_cons, List.reverse_nil, List.nil_append,
    Nat.cast_zero, add_zero]
  rfl

/-- A two-range request whose ranges are listed out of order. -/
def c8Request : InquiryRequest :=
  { location := some originLoc
    device := none
    certification := none
    inquiredFrequencyRange := .list [⟨some (6100, 6101), none⟩, ⟨some (6000, 6001), none⟩]
    inquiredChannels := .absent
    hasMinDesiredPower := false
    environment := none
    pathModel := none
    protectionMarginDb := none
    mergeBins := none
    mergeToleranceDb := none
    bandwidthMHz := none }

/-- C8 counterexample: ranges are processed in the order given and their
entries are appended, never globally sorted — a request listing
`[6100, 6101]` before `[6000, 6001]` yields `availableFrequencyInfo` lows
`[6100, 6000]`, which is not in increasing frequency order. -/
theorem C8_counterexample_out_of_order_ranges :
    Except.map (fun r => (r.availableFrequencyInfo.getD []).map FreqInfo.lowMHz)
      (handle_available_spectrum_inquiry c8Request specSample [] none none none none none none)
      = .ok [6100, 6000] ∧
    ¬ List.Chain' (· ≤ ·) [(6100 : ℝ), 6000] := by
  constructor
  · have h1 : handle_available_spectrum_inquiry c8Request specSample [] none none none none
        none none
        = .ok (freqLoop c8Request specSample [] 0 0 EnvTag.urban 0
            [⟨some (6100, 6101), none⟩, ⟨some (6000, 6001), none⟩] []) := rfl
    have h2 := freqLoop_cons c8Request specSample [] 0 0 EnvTag.urban 0
      ⟨some (6100, 6101), none⟩ [⟨some (6000, 6001), none⟩] [] 6100 6101 rfl (by norm_num)
    have h3 := freqLoop_cons c8Request specSample [] 0 0 EnvTag.urban 0
      ⟨some (6000, 6001), none⟩ []
      ([] ++ rangeEntries c8Request specSample [] 0 0 EnvTag.urban 0 6100 6101)
      6000 6001 rfl (by norm_num)
    rw [h1, h2, h3]
    rw [show freqLoop c8Request specSample [] 0 0 EnvTag.urban 0 []
        (([] ++ rangeEntries c8Request specSample [] 0 0 EnvTag.urban 0 6100 6101)
          ++ rangeEntries c8Request specSample [] 0 0 EnvTag.urban 0 6000 6001)
        = { responseCode := 0
            supplementalInfo := none
            hasExpireTime := true
            availableFrequencyInfo := some
              (([] ++ rangeEntries c8Request specSample [] 0 0 EnvTag.urban 0 6100 6101)
                ++ rangeEntries c8Request specSample [] 0 0 EnvTag.urban 0 6000 6001)
            availableChannelInfo := none } from rfl]
    simp only [Except.map, Option.getD_some, List.nil_append]
    rw [List.map_append]
    rw [show (6100 : ℝ) = ((6100 : ℤ) : ℝ) from by norm_num,
        show (6101 : ℝ) = (((6100 : ℤ) + 1 : ℤ) : ℝ) from by norm_num,
        show (6000 : ℝ) = ((6000 : ℤ) : ℝ) from by norm_num,
        show (6001 : ℝ) = (((6000 : ℤ) + 1 : ℤ) : ℝ) from by norm_num]
    rw [rangeEntries_lows_concrete c8Request specSample [] 0 0 EnvTag.urban 0 6100 rfl,
        rangeEntries_lows_concrete c8Request specSample [] 0 0 EnvTag.urban 0 6000 rfl]
    norm_num
  · norm_num [List.chain'_cons]

/-- C8 (amended): for a frequency inquiry that passes validation, the
`availableFrequencyInfo` entries of each range are in increasing frequency
and ranges are processed in the order given; when the inquired ranges are
themselves listed in increasing order (each range's high at most the next
range's low), the lows of the whole response are non-decreasing.  The
handler never reorders across ranges, so out-of-order inputs yield
out-of-order output. -/
theorem C8_amended_sorted_when_input_sorted (request : InquiryRequest) (spec : SpecParameters)
    (incumbents : List IncRecord) (l : LocationDict) (la lo : ℝ) (frs : List FreqRangeDict)
    (hloc : request.location = some l)
    (hlat : l.lat = some la) (hlon : l.lon = some lo)
    (hE : l.hasEllipse = false) (hLP : l.hasLinearPolygon = false)
    (hRP : l.hasRadialPolygon = false)
    (hfr : request.inquiredFrequencyRange = .list frs)
    (hch : request.inquiredChannels = .absent)
    (hmdp : request.hasMinDesiredPower = false)
    (hvalid : ∀ fr ∈ frs, ∃ p, frBounds fr = some p ∧ p.1 < p.2)
    (hasc : List.Chain' (fun fr fr' => ∀ p p', frBounds fr = some p → frBounds fr' = some p' →
      p.2 ≤ p'.1) frs) :
    ∃ infos,
      handle_available_spectrum_inquiry request spec incumbents none none none none none none
        = .ok { responseCode := 0
                supplementalInfo := none
                hasExpireTime := true
                availableFrequencyInfo := some infos
                availableChannelInfo := none } ∧
      List.Chain' (· ≤ ·) (infos.map FreqInfo.lowMHz) := by
  obtain ⟨infos, heq, hsorted⟩ := freqLoop_sorted
    ⟨some l, request.device, request.certification, .list frs, .absent, false,
      request.environment, request.pathModel, request.protectionMarginDb,
      request.mergeBins, request.mergeToleranceDb, request.bandwidthMHz⟩
    spec incumbents la lo
    (request.environment.getD .urban) (request.protectionMarginDb.getD 0) frs []
    hvalid hasc (by simp) (by simp)
  refine ⟨infos, ?_, hsorted.chain'⟩
  unfold handle_available_spectrum_inquiry
  simp only [hloc, hlat, hlon, hE, hLP, hRP, hfr, hch, hmdp]
  simp
  exact heq

/-- A two-range request whose ranges are listed in increasing order. -/
def c8wRequest : InquiryRequest :=
  { location := some originLoc
    device := none
    certification := none
    inquiredFrequencyRange := .list [⟨some (6000, 6001), none⟩, ⟨some (6001, 6002), none⟩]
    inquiredChannels := .absent
    hasMinDesiredPower := false
    environment := none
    pathModel := none
    protectionMarginDb := none
    mergeBins := none
    mergeToleranceDb := none
    bandwidthMHz := none }

/-- Witness for the amended C8: a concrete ascending two-range request is
answered with a success response whose lows are non-decreasing. -/
theorem C8_amended_sorted_when_input_sorted_witness :
    ∃ infos,
      handle_available_spectrum_inquiry c8wRequest specSample [] none none none none none none
        = .ok { responseCode := 0
                supplementalInfo := none
                hasExpireTime := true
                availableFrequencyInfo := some infos
                availableChannelInfo := none } ∧
      List.Chain' (· ≤ ·) (infos.map FreqInfo.lowMHz) := by
  refine C8_amended_sorted_when_input_sorted c8wRequest specSample [] originLoc 0 0
    [⟨some (6000, 6001), none⟩, ⟨some (6001, 6002), none⟩]
    rfl rfl rfl rfl rfl rfl rfl rfl rfl ?_ ?_
  · intro fr hfr
    rcases List.mem_cons.mp hfr with rfl | hfr'
    · exact ⟨(6000, 6001), rfl, by norm_num⟩
    · rcases List.mem_cons.mp hfr' with rfl | hfr''
      · exact ⟨(6001, 6002), rfl, by norm_num⟩
      · exact absurd hfr'' (List.not_mem_nil fr)
  · refine List.chain'_cons.mpr ⟨?_, List.chain'_singleton _⟩
    intro p p' h1 h2
    injection h1 with h1'
    injection h2 with h2'
    subst h1'
    subst h2'
    norm_num

end C8Theorems

end AFC
